import Mathlib

/-!
# Verification of the feather entity-component store and world glue

Shallow embedding of `src/quill/ecs/src/ecs.rs` (the `Ecs` orchestrator)
and `src/core/src/world/mod.rs` (`ChunkPosition`).

The orchestrator's collaborators (`entity.rs`'s `Entities` allocator and
`storage.rs`'s `SparseSetStorage`) are not part of the provided sources;
they are modelled from the specification (see the doc comments below).
Component types are identified by an abstract `Nat` type id, and component
values of all types live in one type parameter `V`; machine `u32`
generation counters are `Nat` with an explicit `% 2^32` at the increment.
-/

namespace Feather

/-- Number of values of a `u32` (`2^32`); generation counters wrap at
this bound. -/
def u32Mod : Nat := 4294967296

/-- `EntityId { index: u32, generation: u32 }`: a generation-checked entity
identifier.  Two ids are equal iff both fields match. -/
structure EntityId where
  index : Nat
  generation : Nat
  deriving DecidableEq, Repr

/-- Modelled from the spec: the Entity Allocator (`entity.rs` is not in the
provided sources).  Owns a growable table `generation_of[index]` and a free
list of indices available for reuse. -/
structure Entities where
  generations : List Nat
  free : List Nat
  deriving DecidableEq, Repr

/-- Modelled from the spec: `check_generation(id)` is a read-only liveness
probe that fails iff `id.generation` does not match the stored generation
for `id.index` (covering "already dead", "never issued" and "index out of
range" uniformly).  `true` means the probe succeeds. -/
def Entities.checkGeneration (es : Entities) (id : EntityId) : Bool :=
  es.generations.get? id.index == some id.generation

/-- Modelled from the spec: `allocate()` either pops an index from the free
list (reusing it with `generation_of[index]` already incremented at
deallocation time) or appends a fresh index with generation 0. -/
def Entities.allocate (es : Entities) : EntityId × Entities :=
  match es.free with
  | i :: rest => (⟨i, es.generations.getD i 0⟩, { es with free := rest })
  | [] =>
    (⟨es.generations.length, 0⟩,
      { es with generations := es.generations ++ [0] })

/-- Modelled from the spec: `deallocate(id)` validates
`id.generation == generation_of[id.index]`, then increments
`generation_of[id.index]` (a fixed-width `u32` counter that wraps on
overflow) and pushes the index onto the free list.  `none` models the
`EntityDead` failure. -/
def Entities.deallocate (es : Entities) (id : EntityId) : Option Entities :=
  if es.checkGeneration id then
    some
      { generations :=
          es.generations.set id.index
            ((es.generations.getD id.index 0 + 1) % u32Mod),
        free := id.index :: es.free }
  else
    none

/-- Modelled from the spec: the per-component-type Sparse-Set Storage
(`storage.rs` is not in the provided sources).  `sparse` is indexed by
entity index and yields either "absent" or a slot number into the dense
array; `dense` holds the component values; `backpointers` is the parallel
dense array mapping slot number back to owning entity index.  An index at
or past `sparse.length` is absent. -/
structure SparseSetStorage (V : Type) where
  sparse : List (Option Nat)
  dense : List V
  backpointers : List Nat
  deriving Repr

/-- A fresh, empty storage (`SparseSetStorage::new`). -/
def SparseSetStorage.empty {V : Type} : SparseSetStorage V :=
  ⟨[], [], []⟩

/-- The sparse-array read: absent outside the array's current extent. -/
def SparseSetStorage.sparseGet {V : Type} (st : SparseSetStorage V)
    (i : Nat) : Option Nat :=
  st.sparse.getD i none

/-- Grow a sparse array with "absent" entries so that position `n - 1`
exists (no-op when it already does). -/
def padTo (l : List (Option Nat)) (n : Nat) : List (Option Nat) :=
  l ++ List.replicate (n - l.length) none

/-- Modelled from the spec: storage `insert(index, value)`.  If `index`
already occupies a slot, overwrite the dense value in place (no duplicate
slot, dense length unchanged); otherwise append `value` to the dense
array, append `index` to the backpointers and record the new slot number
at `sparse[index]`. -/
def SparseSetStorage.insert {V : Type} (st : SparseSetStorage V) (i : Nat)
    (v : V) : SparseSetStorage V :=
  match st.sparseGet i with
  | some s => { st with dense := st.dense.set s v }
  | none =>
    { sparse := (padTo st.sparse (i + 1)).set i (some st.dense.length),
      dense := st.dense ++ [v],
      backpointers := st.backpointers ++ [i] }

/-- Modelled from the spec: storage `get(index)` returns the component if
`index`'s sparse slot is occupied, else absent. -/
def SparseSetStorage.get {V : Type} (st : SparseSetStorage V) (i : Nat) :
    Option V :=
  (st.sparseGet i).bind fun s => st.dense.get? s

/-- Modelled from the spec: storage `remove(index) -> bool`.  If absent,
return `false` (no-op).  If present at slot `s`: swap the last dense
element and its backpointer into slot `s` (a no-op when `s` is already the
last slot), update the moved entity's sparse entry to `s`, truncate the
dense arrays by one and clear `sparse[index]`.  The second match arm is
unreachable when the storage is well-formed (an occupied slot forces a
non-empty dense array). -/
def SparseSetStorage.remove {V : Type} (st : SparseSetStorage V) (i : Nat) :
    Bool × SparseSetStorage V :=
  match st.sparseGet i with
  | none => (false, st)
  | some s =>
    match st.dense.getLast?, st.backpointers.getLast? with
    | some lastVal, some lastIdx =>
      (true,
        { sparse := (st.sparse.set lastIdx (some s)).set i none,
          dense := (st.dense.set s lastVal).dropLast,
          backpointers := (st.backpointers.set s lastIdx).dropLast })
    | _, _ => (true, { st with sparse := st.sparse.set i none })

/-- `struct EntityDead;` — the entity is dead or was unloaded. -/
structure EntityDead where
  deriving DecidableEq, Repr

/-- `enum ComponentError { MissingComponent(&'static str),
MissingEntity(EntityDead) }`.  The component type's name is modelled by
its abstract `Nat` type id. -/
inductive ComponentError where
  | MissingComponent (tyId : Nat)
  | MissingEntity (e : EntityDead)
  deriving DecidableEq, Repr

/-- The `Ecs` struct: an `AHashMap<ComponentTypeId, SparseSetStorage>`
modelled as an association list keyed by the `Nat` type id, plus the
`Entities` allocator. -/
structure Ecs (V : Type) where
  components : List (Nat × SparseSetStorage V)
  entities : Entities

/-- `Ecs::new()` / `Ecs::default()`: a new, empty ECS. -/
def Ecs.empty (V : Type) : Ecs V :=
  ⟨[], ⟨[], []⟩⟩

/-- First-match lookup in the type-id-keyed storage map
(`self.components.get(&type_id)`). -/
def lookupStorage {V : Type} :
    List (Nat × SparseSetStorage V) → Nat → Option (SparseSetStorage V)
  | [], _ => none
  | (k, st) :: rest, t => if k = t then some st else lookupStorage rest t

/-- Store a storage under a type id: overwrite the first entry with that
key, or append a new entry when the key is absent (the
`entry(..).or_insert_with(..)` path). -/
def setStorage {V : Type} :
    List (Nat × SparseSetStorage V) → Nat → SparseSetStorage V →
      List (Nat × SparseSetStorage V)
  | [], t, st => [(t, st)]
  | (k, s) :: rest, t, st =>
    if k = t then (k, st) :: rest else (k, s) :: setStorage rest t st

/-- `Ecs::check_entity`: the liveness probe used by the operations. -/
def Ecs.checkEntity {V : Type} (w : Ecs V) (e : EntityId) : Bool :=
  w.entities.checkGeneration e

/-- `Ecs::get::<T>`: looks up the storage for `T` first
(`storage_for::<T>()?`, failing `MissingComponent` when the type was never
stored), then checks entity liveness (failing `MissingEntity`), then reads
the slot (failing `MissingComponent` when the entity has none). -/
def Ecs.get {V : Type} (w : Ecs V) (t : Nat) (e : EntityId) :
    Except ComponentError V :=
  match lookupStorage w.components t with
  | none => .error (.MissingComponent t)
  | some st =>
    if w.checkEntity e then
      match st.get e.index with
      | some v => .ok v
      | none => .error (.MissingComponent t)
    else
      .error (.MissingEntity ⟨⟩)

/-- `Ecs::insert::<T>`: checks liveness first, then obtains the storage for
`T` (lazily creating it on first use) and delegates to the storage insert.
Mirrors `&mut self` by returning the result together with the state. -/
def Ecs.insert {V : Type} (w : Ecs V) (t : Nat) (e : EntityId) (v : V) :
    Except EntityDead Unit × Ecs V :=
  if w.checkEntity e then
    let st := (lookupStorage w.components t).getD SparseSetStorage.empty
    (.ok (),
      { w with components := setStorage w.components t (st.insert e.index v) })
  else
    (.error ⟨⟩, w)

/-- `Ecs::remove::<T>`: checks liveness first, then requires the storage
for `T` to exist (`storage_mut_for`), then calls the storage remove; a
`false` from the storage (entity had no slot) becomes `MissingComponent`.
The storage write-back happens in both branches, as through the Rust
`&mut` reference. -/
def Ecs.remove {V : Type} (w : Ecs V) (t : Nat) (e : EntityId) :
    Except ComponentError Unit × Ecs V :=
  if w.checkEntity e then
    match lookupStorage w.components t with
    | none => (.error (.MissingComponent t), w)
    | some st =>
      if (st.remove e.index).1 then
        (.ok (), ⟨setStorage w.components t (st.remove e.index).2, w.entities⟩)
      else
        (.error (.MissingComponent t),
          ⟨setStorage w.components t (st.remove e.index).2, w.entities⟩)
  else
    (.error (.MissingEntity ⟨⟩), w)

/-- `Ecs::spawn_empty`: allocates an identity with zero components. -/
def Ecs.spawnEmpty {V : Type} (w : Ecs V) : EntityId × Ecs V :=
  let r := w.entities.allocate
  (r.1, { w with entities := r.2 })

/-- `Ecs::despawn`: deallocates the identity (propagating `EntityDead` when
it is already dead), then visits every currently-registered storage and
removes this entity's slot if present. -/
def Ecs.despawn {V : Type} (w : Ecs V) (e : EntityId) :
    Except EntityDead Unit × Ecs V :=
  match w.entities.deallocate e with
  | none => (.error ⟨⟩, w)
  | some es' =>
    (.ok (),
      { components := w.components.map fun p => (p.1, (p.2.remove e.index).2),
        entities := es' })

/-- Well-formedness of a sparse-set storage, the invariant stated in the
spec: `dense.len() == backpointers.len()`; every occupied sparse slot
points at a backpointer naming its owning index; every backpointer's index
points back at its slot. -/
structure SparseSetStorage.WF {V : Type} (st : SparseSetStorage V) : Prop where
  lenEq : st.backpointers.length = st.dense.length
  slotBack : ∀ i s, st.sparseGet i = some s → st.backpointers.get? s = some i
  backSlot : ∀ k i, st.backpointers.get? k = some i → st.sparseGet i = some k

/-- Executable check equivalent to `SparseSetStorage.WF` (used to settle
well-formedness of concrete storages by evaluation). -/
def SparseSetStorage.wfb {V : Type} (st : SparseSetStorage V) : Bool :=
  (st.backpointers.length == st.dense.length) &&
  ((List.range st.sparse.length).all fun i =>
    match st.sparseGet i with
    | none => true
    | some s => st.backpointers.get? s == some i) &&
  ((List.range st.backpointers.length).all fun k =>
    match st.backpointers.get? k with
    | none => true
    | some i => st.sparseGet i == some k)

/-- Well-formedness of every registered storage of an `Ecs`. -/
def Ecs.StoragesWF {V : Type} (w : Ecs V) : Prop :=
  ∀ p ∈ w.components, p.2.WF

/-- Full well-formedness of an `Ecs` store: generation counters are `u32`
values, the free list holds distinct in-range indices, every storage is
well-formed, and every occupied storage index belongs to an allocated
(live, not freed) entity index. -/
structure Ecs.WF {V : Type} (w : Ecs V) : Prop where
  gensBound : ∀ g ∈ w.entities.generations, g < u32Mod
  freeRange : ∀ i ∈ w.entities.free, i < w.entities.generations.length
  freeNodup : w.entities.free.Nodup
  storages : ∀ p ∈ w.components, p.2.WF
  occLive : ∀ p ∈ w.components, ∀ i s, p.2.sparseGet i = some s →
    i < w.entities.generations.length ∧ i ∉ w.entities.free

/-- Apply a list of kill requests of one component type to a store:
`(false, e)` is `Ecs::remove::<T>(e)`, `(true, e)` is `Ecs::despawn(e)`;
a failing call leaves the store as the call left it. -/
def Ecs.applyKills {V : Type} (w : Ecs V) (t : Nat) :
    List (Bool × EntityId) → Ecs V
  | [] => w
  | (b, k) :: rest =>
    (if b then (w.despawn k).2 else (w.remove t k).2).applyKills t rest

/-- One public mutating operation of the store, with entity arguments given
as positions into the list of ids the store has issued so far (callers
only hold ids returned by `spawn_empty`). -/
inductive EcsOp (V : Type) where
  | spawn
  | insertOp (t : Nat) (h : Nat) (v : V)
  | removeOp (t : Nat) (h : Nat)
  | despawnOp (h : Nat)

/-- A store together with the list of every id it has issued. -/
structure Trace (V : Type) where
  w : Ecs V
  issued : List EntityId

/-- The freshly created store, having issued nothing. -/
def Trace.init (V : Type) : Trace V :=
  ⟨Ecs.empty V, []⟩

/-- Run one operation; an out-of-range handle is a no-op. -/
def Trace.step {V : Type} (ts : Trace V) : EcsOp V → Trace V
  | .spawn =>
    let r := ts.w.spawnEmpty
    ⟨r.2, ts.issued ++ [r.1]⟩
  | .insertOp t h v =>
    match ts.issued.get? h with
    | some e => ⟨(ts.w.insert t e v).2, ts.issued⟩
    | none => ts
  | .removeOp t h =>
    match ts.issued.get? h with
    | some e => ⟨(ts.w.remove t e).2, ts.issued⟩
    | none => ts
  | .despawnOp h =>
    match ts.issued.get? h with
    | some e => ⟨(ts.w.despawn e).2, ts.issued⟩
    | none => ts

/-- Run a whole operation sequence from the freshly created store. -/
def Trace.run (V : Type) (ops : List (EcsOp V)) : Trace V :=
  ops.foldl Trace.step (Trace.init V)

/-- The store/handle invariant maintained by every trace of at most `n`
steps: generation counters are bounded by the step count (so they have
not wrapped), issued ids never run ahead of the stored generation and are
strictly behind it while their index is free, the free list holds
distinct in-range indices, every storage is well-formed, every occupied
storage index is allocated (in range and not free), and every allocated
index is owned by an issued id with the matching generation. -/
structure TraceInv {V : Type} (ts : Trace V) (n : Nat) : Prop where
  gensBound : ∀ g ∈ ts.w.entities.generations, g ≤ n
  issuedOk : ∀ id ∈ ts.issued,
    ∃ g, ts.w.entities.generations.get? id.index = some g ∧
      id.generation ≤ g ∧
      (id.index ∈ ts.w.entities.free → id.generation < g)
  freeRange : ∀ i ∈ ts.w.entities.free,
    i < ts.w.entities.generations.length
  freeNodup : ts.w.entities.free.Nodup
  storages : ∀ p ∈ ts.w.components, p.2.WF
  occLive : ∀ p ∈ ts.w.components, ∀ i s, p.2.sparseGet i = some s →
    i < ts.w.entities.generations.length ∧ i ∉ ts.w.entities.free
  liveIssued : ∀ i g, ts.w.entities.generations.get? i = some g →
    i ∉ ts.w.entities.free →
    ∃ id, id ∈ ts.issued ∧ id.index = i ∧ id.generation = g

/-- `ChunkPosition { x: i32, z: i32 }` from `src/core/src/world/mod.rs`;
the `i32` fields are `Int` and the arithmetic wraps explicitly. -/
structure ChunkPosition where
  x : Int
  z : Int
  deriving DecidableEq, Repr

/-- Reduce an `Int` to the representable range of an `i32`
(two's-complement wraparound). -/
def wrap32 (x : Int) : Int :=
  (x + 2 ^ 31) % 2 ^ 32 - 2 ^ 31

/-- `i32::abs` under release-mode (wrapping) overflow semantics. -/
def i32abs (x : Int) : Int :=
  wrap32 |x|

/-- `ChunkPosition::manhattan_distance`, transcribed exactly from the
source: `(self.x - other.z).abs() + (self.z - other.z).abs()` — note that
the first term subtracts `other.z`, not `other.x`. -/
def ChunkPosition.manhattan_distance (a b : ChunkPosition) : Int :=
  wrap32 (i32abs (wrap32 (a.x - b.z)) + i32abs (wrap32 (a.z - b.z)))

/-- The Manhattan distance the doc comment of `manhattan_distance`
promises: `|a.x - b.x| + |a.z - b.z|`. -/
def ChunkPosition.manhattanSpec (a b : ChunkPosition) : Int :=
  |a.x - b.x| + |a.z - b.z|

/-! Concrete demonstration states used to instantiate the theorems. -/

/-- A store with one freshly spawned entity. -/
def demoW1 : Ecs Nat := ((Ecs.empty Nat).spawnEmpty).2

/-- The id of the first spawned entity. -/
def demoE : EntityId := ((Ecs.empty Nat).spawnEmpty).1

/-- `demoW1` with component type 7 holding 42 on the entity. -/
def demoW2 : Ecs Nat := (demoW1.insert 7 demoE 42).2

/-- `demoW2` after despawning the entity. -/
def demoW3 : Ecs Nat := (demoW2.despawn demoE).2

/-- Three entities carrying distinct values of component type 1. -/
def demoTrio : Ecs Nat × EntityId × EntityId × EntityId :=
  let s0 := (Ecs.empty Nat).spawnEmpty
  let s1 := s0.2.spawnEmpty
  let s2 := s1.2.spawnEmpty
  let w := (((s2.2.insert 1 s0.1 10).2.insert 1 s1.1 11).2.insert 1 s2.1 12).2
  (w, s0.1, s1.1, s2.1)

/-- Kill list: remove the component from the second entity, despawn the
first. -/
def demoKills : List (Bool × EntityId) :=
  [(false, demoTrio.2.2.1), (true, demoTrio.2.1)]

/-- A short operation sequence: spawn one entity, give it component 5. -/
def demoOps : List (EcsOp Nat) :=
  [.spawn, .insertOp 5 0 99]

/-! ### Helper lemmas about the sparse array -/

/-- Reading the sparse array through `getElem?`. -/
lemma sparseGet_eq_iff {V : Type} (st : SparseSetStorage V) (i : Nat)
    (s : Nat) :
    st.sparseGet i = some s ↔ st.sparse[i]? = some (some s) := by
  unfold SparseSetStorage.sparseGet
  rw [List.getD_eq_getElem?_getD]
  cases h : st.sparse[i]? with
  | none => simp
  | some o => simp

/-- An occupied sparse position lies inside the array. -/
lemma lt_length_of_sparseGet {V : Type} {st : SparseSetStorage V} {i s : Nat}
    (h : st.sparseGet i = some s) : i < st.sparse.length := by
  rw [sparseGet_eq_iff] at h
  exact (List.getElem?_eq_some_iff.mp h).1

/-- Writing any position of a sparse array and reading it back. -/
lemma getD_set_self (l : List (Option Nat)) (i : Nat) (a : Option Nat)
    (h : i < l.length) : (l.set i a).getD i none = a := by
  rw [List.getD_eq_getElem?_getD, List.getElem?_set_self h]
  rfl

/-- Writing one position leaves the others unchanged. -/
lemma getD_set_ne (l : List (Option Nat)) {i j : Nat} (a : Option Nat)
    (h : i ≠ j) : (l.set i a).getD j none = l.getD j none := by
  rw [List.getD_eq_getElem?_getD, List.getD_eq_getElem?_getD,
    List.getElem?_set_ne h]

/-- Growing the sparse array with absent entries changes no read. -/
lemma padTo_getD (l : List (Option Nat)) (n j : Nat) :
    (padTo l n).getD j none = l.getD j none := by
  unfold padTo
  rw [List.getD_eq_getElem?_getD, List.getD_eq_getElem?_getD]
  rcases Nat.lt_or_ge j l.length with hj | hj
  · rw [List.getElem?_append_left hj]
  · rw [List.getElem?_append_right hj, List.getElem?_eq_none_iff.mpr hj,
      List.getElem?_replicate]
    split <;> simp

/-- The padded array is long enough to hold the requested position. -/
lemma padTo_length (l : List (Option Nat)) (n : Nat) :
    n ≤ (padTo l n).length := by
  unfold padTo
  simp only [List.length_append, List.length_replicate]
  omega

/-- Generic form of reading back a written position, any element type. -/
lemma getD_set_eq_of_lt {α : Type} (l : List α) (i : Nat) (a d : α)
    (h : i < l.length) : (l.set i a).getD i d = a := by
  rw [List.getD_eq_getElem?_getD, List.getElem?_set_self h]
  rfl

/-- Generic form: writing one position leaves the others unchanged. -/
lemma getD_set_ne_of {α : Type} (l : List α) {i j : Nat} (a d : α)
    (h : i ≠ j) : (l.set i a).getD j d = l.getD j d := by
  rw [List.getD_eq_getElem?_getD, List.getD_eq_getElem?_getD,
    List.getElem?_set_ne h]

/-! ### Storage lemmas -/

/-- The empty storage is well-formed. -/
lemma wf_empty_storage (V : Type) : (SparseSetStorage.empty (V := V)).WF := by
  constructor
  · rfl
  · intro i s h
    simp [SparseSetStorage.empty, SparseSetStorage.sparseGet] at h
  · intro k i h
    simp [SparseSetStorage.empty] at h

/-- The executable well-formedness check is sound for `WF` (used to settle
concrete storages by evaluation). -/
lemma wf_of_wfb {V : Type} {st : SparseSetStorage V} (h : st.wfb = true) :
    st.WF := by
  unfold SparseSetStorage.wfb at h
  rw [Bool.and_eq_true, Bool.and_eq_true] at h
  obtain ⟨⟨h1, h2⟩, h3⟩ := h
  refine ⟨beq_iff_eq.mp h1, ?_, ?_⟩
  · intro i s hsp
    have hi : i < st.sparse.length := lt_length_of_sparseGet hsp
    have hall := List.all_eq_true.mp h2 i (List.mem_range.mpr hi)
    rw [hsp] at hall
    exact beq_iff_eq.mp hall
  · intro k i hk
    have hklt : k < st.backpointers.length := (List.get?_eq_some.mp hk).1
    have hall := List.all_eq_true.mp h3 k (List.mem_range.mpr hklt)
    rw [hk] at hall
    exact beq_iff_eq.mp hall

/-- Unfolding `get`. -/
lemma get_eq {V : Type} (st : SparseSetStorage V) (i : Nat) :
    st.get i = (st.sparseGet i).bind fun s => st.dense.get? s :=
  rfl

/-- `insert` at an occupied index: in-place dense overwrite. -/
lemma insert_eq_occupied {V : Type} (st : SparseSetStorage V) {i s : Nat}
    (v : V) (h : st.sparseGet i = some s) :
    st.insert i v = ⟨st.sparse, st.dense.set s v, st.backpointers⟩ := by
  unfold SparseSetStorage.insert
  rw [h]

/-- `insert` at an absent index: append to the dense arrays and record the
new slot. -/
lemma insert_eq_fresh {V : Type} (st : SparseSetStorage V) {i : Nat} (v : V)
    (h : st.sparseGet i = none) :
    st.insert i v =
      ⟨(padTo st.sparse (i + 1)).set i (some st.dense.length),
        st.dense ++ [v], st.backpointers ++ [i]⟩ := by
  unfold SparseSetStorage.insert
  rw [h]

/-- `remove` of an absent index: report `false`, change nothing. -/
lemma remove_eq_absent {V : Type} (st : SparseSetStorage V) {i : Nat}
    (h : st.sparseGet i = none) : st.remove i = (false, st) := by
  unfold SparseSetStorage.remove
  rw [h]

/-- `remove` of an occupied slot: swap the last dense element and its
backpointer into the vacated slot, truncate, clear the sparse entry. -/
lemma remove_eq_present {V : Type} (st : SparseSetStorage V) {i s : Nat}
    {lv : V} {li : Nat} (h : st.sparseGet i = some s)
    (hd : st.dense.getLast? = some lv)
    (hb : st.backpointers.getLast? = some li) :
    st.remove i =
      (true,
        ⟨(st.sparse.set li (some s)).set i none,
          (st.dense.set s lv).dropLast,
          (st.backpointers.set s li).dropLast⟩) := by
  unfold SparseSetStorage.remove
  rw [h, hd, hb]

/-- After an insert, the inserted index is occupied. -/
lemma insert_sparseGet_self {V : Type} (st : SparseSetStorage V) (i : Nat)
    (v : V) : ∃ s, (st.insert i v).sparseGet i = some s := by
  cases h : st.sparseGet i with
  | some s =>
    rw [insert_eq_occupied st v h]
    exact ⟨s, h⟩
  | none =>
    rw [insert_eq_fresh st v h]
    refine ⟨st.dense.length, ?_⟩
    show ((padTo st.sparse (i + 1)).set i (some st.dense.length)).getD i none
      = some st.dense.length
    exact getD_set_self _ _ _
      (lt_of_lt_of_le (Nat.lt_succ_self i) (padTo_length st.sparse (i + 1)))

/-- Inserting at an occupied index leaves the dense length unchanged. -/
lemma insert_dense_length_occupied {V : Type} (st : SparseSetStorage V)
    {i s : Nat} (v : V) (h : st.sparseGet i = some s) :
    (st.insert i v).dense.length = st.dense.length := by
  rw [insert_eq_occupied st v h]
  simp

/-- Reading back the value just inserted. -/
lemma insert_get_self {V : Type} {st : SparseSetStorage V} (i : Nat) (v : V)
    (hwf : st.WF) : (st.insert i v).get i = some v := by
  cases h : st.sparseGet i with
  | some s =>
    have hb := hwf.slotBack i s h
    have hs : s < st.dense.length := by
      have h1 := (List.get?_eq_some.mp hb).1
      have h2 := hwf.lenEq
      omega
    rw [insert_eq_occupied st v h, get_eq]
    show ((st.sparseGet i).bind fun k => (st.dense.set s v).get? k) = some v
    rw [h]
    show (st.dense.set s v).get? s = some v
    rw [List.get?_eq_getElem?]
    rw [List.getElem?_set_self hs]
  | none =>
    have hi : i < (padTo st.sparse (i + 1)).length :=
      lt_of_lt_of_le (Nat.lt_succ_self i) (padTo_length st.sparse (i + 1))
    rw [insert_eq_fresh st v h, get_eq]
    show (((padTo st.sparse (i + 1)).set i (some st.dense.length)).getD i
        none).bind (fun s => (st.dense ++ [v]).get? s) = some v
    rw [getD_set_self _ _ _ hi]
    show (st.dense ++ [v]).get? st.dense.length = some v
    rw [List.get?_eq_getElem?]
    exact List.getElem?_concat_length st.dense v

/-- Two occupied indices sharing a slot are equal (slots own backpointers). -/
lemma sparse_inj {V : Type} {st : SparseSetStorage V} {i j s : Nat}
    (hwf : st.WF) (hi : st.sparseGet i = some s)
    (hj : st.sparseGet j = some s) : i = j := by
  have h1 := hwf.slotBack i s hi
  have h2 := hwf.slotBack j s hj
  rw [h1] at h2
  exact Option.some.inj h2

/-- An occupied slot lies inside the dense array. -/
lemma slot_lt_dense {V : Type} {st : SparseSetStorage V} {i s : Nat}
    (hwf : st.WF) (h : st.sparseGet i = some s) : s < st.dense.length := by
  have h1 := (List.get?_eq_some.mp (hwf.slotBack i s h)).1
  have h2 := hwf.lenEq
  omega

/-- Inserting elsewhere does not disturb a read. -/
lemma insert_get_other {V : Type} {st : SparseSetStorage V} {i j : Nat}
    (v : V) (hwf : st.WF) (hne : j ≠ i) :
    (st.insert i v).get j = st.get j := by
  cases h : st.sparseGet i with
  | some s =>
    rw [insert_eq_occupied st v h, get_eq, get_eq]
    show ((st.sparseGet j).bind fun k => (st.dense.set s v).get? k)
      = (st.sparseGet j).bind fun k => st.dense.get? k
    cases hj : st.sparseGet j with
    | none => rfl
    | some k =>
      have hks : s ≠ k := by
        intro hsk
        subst hsk
        exact hne (sparse_inj hwf hj h)
      show (st.dense.set s v).get? k = st.dense.get? k
      rw [List.get?_eq_getElem?, List.get?_eq_getElem?,
        List.getElem?_set_ne hks]
  | none =>
    rw [insert_eq_fresh st v h, get_eq, get_eq]
    show ((((padTo st.sparse (i + 1)).set i (some st.dense.length)).getD j
        none).bind fun k => (st.dense ++ [v]).get? k)
      = (st.sparseGet j).bind fun k => st.dense.get? k
    rw [getD_set_ne _ _ (Ne.symm hne), padTo_getD]
    show ((st.sparseGet j).bind fun k => (st.dense ++ [v]).get? k)
      = (st.sparseGet j).bind fun k => st.dense.get? k
    cases hj : st.sparseGet j with
    | none => rfl
    | some k =>
      show (st.dense ++ [v]).get? k = st.dense.get? k
      rw [List.get?_eq_getElem?, List.get?_eq_getElem?,
        List.getElem?_append_left (slot_lt_dense hwf hj)]

/-- `insert` preserves storage well-formedness. -/
lemma insert_WF {V : Type} {st : SparseSetStorage V} (i : Nat) (v : V)
    (hwf : st.WF) : (st.insert i v).WF := by
  cases h : st.sparseGet i with
  | some s =>
    rw [insert_eq_occupied st v h]
    refine ⟨?_, hwf.slotBack, hwf.backSlot⟩
    show st.backpointers.length = (st.dense.set s v).length
    rw [List.length_set]
    exact hwf.lenEq
  | none =>
    have hi : i < (padTo st.sparse (i + 1)).length :=
      lt_of_lt_of_le (Nat.lt_succ_self i) (padTo_length st.sparse (i + 1))
    rw [insert_eq_fresh st v h]
    refine ⟨?_, ?_, ?_⟩
    · show (st.backpointers ++ [i]).length = (st.dense ++ [v]).length
      simp [hwf.lenEq]
    · intro j s' hj
      have hj2 : ((padTo st.sparse (i + 1)).set i
          (some st.dense.length)).getD j none = some s' := hj
      show (st.backpointers ++ [i]).get? s' = some j
      by_cases hji : j = i
      · subst hji
        rw [getD_set_self _ _ _ hi] at hj2
        cases hj2
        rw [List.get?_eq_getElem?, ← hwf.lenEq, List.getElem?_concat_length]
      · rw [getD_set_ne _ _ (Ne.symm hji), padTo_getD] at hj2
        have hb := hwf.slotBack j s' hj2
        have hlt : s' < st.backpointers.length := (List.get?_eq_some.mp hb).1
        rw [List.get?_eq_getElem?, List.getElem?_append_left hlt,
          ← List.get?_eq_getElem?]
        exact hb
    · intro k j hk
      have hk2 : (st.backpointers ++ [i]).get? k = some j := hk
      show ((padTo st.sparse (i + 1)).set i
        (some st.dense.length)).getD j none = some k
      rcases Nat.lt_trichotomy k st.backpointers.length with hlt | heq | hgt
      · rw [List.get?_eq_getElem?, List.getElem?_append_left hlt,
          ← List.get?_eq_getElem?] at hk2
        have hs := hwf.backSlot k j hk2
        have hji : j ≠ i := fun hji => by
          rw [hji, h] at hs
          cases hs
        rw [getD_set_ne _ _ (Ne.symm hji), padTo_getD]
        exact hs
      · rw [List.get?_eq_getElem?, heq, List.getElem?_concat_length] at hk2
        cases hk2
        rw [getD_set_self _ _ _ hi, heq, hwf.lenEq]
      · rw [List.get?_eq_getElem?, List.getElem?_eq_none_iff.mpr
          (by simp; omega)] at hk2
        cases hk2

/-- Inserting occupies no index beyond the inserted one. -/
lemma insert_occupied {V : Type} {st : SparseSetStorage V} {i j s' : Nat}
    (v : V) (h : (st.insert i v).sparseGet j = some s') :
    j = i ∨ ∃ s, st.sparseGet j = some s := by
  cases hcase : st.sparseGet i with
  | some s =>
    rw [insert_eq_occupied st v hcase] at h
    exact Or.inr ⟨s', h⟩
  | none =>
    by_cases hji : j = i
    · exact Or.inl hji
    · rw [insert_eq_fresh st v hcase] at h
      have h2 : ((padTo st.sparse (i + 1)).set i
          (some st.dense.length)).getD j none = some s' := h
      rw [getD_set_ne _ _ (Ne.symm hji), padTo_getD] at h2
      exact Or.inr ⟨s', h2⟩

/-- Under well-formedness an occupied index forces the swap branch of
`remove`, with the last dense element and backpointer made explicit. -/
lemma remove_present_spec {V : Type} {st : SparseSetStorage V} {i s : Nat}
    (hwf : st.WF) (h : st.sparseGet i = some s) :
    ∃ lv li, st.dense.get? (st.dense.length - 1) = some lv ∧
      st.backpointers.get? (st.dense.length - 1) = some li ∧
      st.remove i =
        (true,
          ⟨(st.sparse.set li (some s)).set i none,
            (st.dense.set s lv).dropLast,
            (st.backpointers.set s li).dropLast⟩) := by
  have hs := slot_lt_dense hwf h
  have hd : st.dense.length - 1 < st.dense.length := by omega
  have hbl : st.dense.length - 1 < st.backpointers.length := by
    have := hwf.lenEq
    omega
  refine ⟨st.dense.get ⟨st.dense.length - 1, hd⟩,
    st.backpointers.get ⟨st.dense.length - 1, hbl⟩, ?_, ?_, ?_⟩
  · exact List.get?_eq_get hd
  · exact List.get?_eq_get hbl
  · refine remove_eq_present st h ?_ ?_
    · rw [List.getLast?_eq_get?]
      exact List.get?_eq_get hd
    · rw [List.getLast?_eq_get?]
      have hidx : st.backpointers.length - 1 = st.dense.length - 1 := by
        rw [hwf.lenEq]
      rw [hidx]
      exact List.get?_eq_get hbl

/-- Whatever branch `remove` takes, the removed index ends up absent. -/
lemma remove_sparseGet_self {V : Type} (st : SparseSetStorage V) (i : Nat) :
    ((st.remove i).2).sparseGet i = none := by
  cases h : st.sparseGet i with
  | none =>
    rw [remove_eq_absent st h]
    exact h
  | some s =>
    have hi : i < st.sparse.length := lt_length_of_sparseGet h
    unfold SparseSetStorage.remove
    rw [h]
    cases hd : st.dense.getLast? with
    | some lv =>
      cases hb : st.backpointers.getLast? with
      | some li =>
        show ((st.sparse.set li (some s)).set i none).getD i none = none
        exact getD_set_self _ _ _ (by simpa using hi)
      | none =>
        show (st.sparse.set i none).getD i none = none
        exact getD_set_self _ _ _ hi
    | none =>
      show (st.sparse.set i none).getD i none = none
      exact getD_set_self _ _ _ hi

/-- Removing one index does not disturb any other index's read: the heart
of swap-remove correctness. -/
lemma remove_get_other {V : Type} {st : SparseSetStorage V} {i j : Nat}
    (hwf : st.WF) (hne : j ≠ i) :
    ((st.remove i).2).get j = st.get j := by
  cases h : st.sparseGet i with
  | none => rw [remove_eq_absent st h]
  | some s =>
    obtain ⟨lv, li, hlv, hli, heq⟩ := remove_present_spec hwf h
    have hs : s < st.dense.length := slot_lt_dense hwf h
    have hliSlot : st.sparseGet li = some (st.dense.length - 1) :=
      hwf.backSlot _ li hli
    have hliLen : li < st.sparse.length := lt_length_of_sparseGet hliSlot
    rw [heq, get_eq, get_eq]
    show ((((st.sparse.set li (some s)).set i none).getD j none).bind
        fun k => ((st.dense.set s lv).dropLast).get? k)
      = (st.sparseGet j).bind fun k => st.dense.get? k
    rw [getD_set_ne _ _ (Ne.symm hne)]
    by_cases hjl : j = li
    · subst hjl
      rw [getD_set_self _ _ _ hliLen, hliSlot]
      show ((st.dense.set s lv).dropLast).get? s
        = st.dense.get? (st.dense.length - 1)
      have hsne : s ≠ st.dense.length - 1 := by
        intro hcon
        subst hcon
        exact hne (sparse_inj hwf hliSlot h)
      rw [List.dropLast_eq_take, List.get?_eq_getElem?,
        List.getElem?_take_of_lt (by simp only [List.length_set]; omega),
        List.getElem?_set_self (by omega), ← hlv, List.get?_eq_getElem?]
    · have hrw : (st.sparse.set li (some s)).getD j none = st.sparseGet j :=
        getD_set_ne _ _ (Ne.symm hjl)
      rw [hrw]
      cases hj : st.sparseGet j with
      | none => rfl
      | some k =>
        have hk : k < st.dense.length := slot_lt_dense hwf hj
        have hkne : k ≠ s := by
          intro hcon
          exact hne (sparse_inj hwf hj (hcon ▸ h))
        have hklast : k ≠ st.dense.length - 1 := by
          intro hcon
          exact hjl (sparse_inj hwf hj (hcon ▸ hliSlot))
        show ((st.dense.set s lv).dropLast).get? k = st.dense.get? k
        rw [List.dropLast_eq_take, List.get?_eq_getElem?,
          List.getElem?_take_of_lt (by simp only [List.length_set]; omega),
          List.getElem?_set_ne (Ne.symm hkne), ← List.get?_eq_getElem?]

/-- `remove` preserves storage well-formedness. -/
lemma remove_WF {V : Type} {st : SparseSetStorage V} (i : Nat)
    (hwf : st.WF) : ((st.remove i).2).WF := by
  cases h : st.sparseGet i with
  | none =>
    rw [remove_eq_absent st h]
    exact hwf
  | some s =>
    obtain ⟨lv, li, hlv, hli, heq⟩ := remove_present_spec hwf h
    have hs : s < st.dense.length := slot_lt_dense hwf h
    have hliSlot : st.sparseGet li = some (st.dense.length - 1) :=
      hwf.backSlot _ li hli
    have hiLen : i < st.sparse.length := lt_length_of_sparseGet h
    have hliLen : li < st.sparse.length := lt_length_of_sparseGet hliSlot
    have hbl : st.backpointers.length = st.dense.length := hwf.lenEq
    rw [heq]
    refine ⟨?_, ?_, ?_⟩
    · show ((st.backpointers.set s li).dropLast).length
        = ((st.dense.set s lv).dropLast).length
      simp [hwf.lenEq]
    · intro j s' hj
      have hj2 : ((st.sparse.set li (some s)).set i none).getD j none
        = some s' := hj
      show ((st.backpointers.set s li).dropLast).get? s' = some j
      by_cases hji : j = i
      · subst hji
        rw [getD_set_self _ _ _ (by simpa using hiLen)] at hj2
        cases hj2
      · rw [getD_set_ne _ _ (Ne.symm hji)] at hj2
        by_cases hjl : j = li
        · subst hjl
          rw [getD_set_self _ _ _ hliLen] at hj2
          cases hj2
          have hsne : s ≠ st.dense.length - 1 := by
            intro hcon
            subst hcon
            exact hji (sparse_inj hwf hliSlot h)
          rw [List.dropLast_eq_take, List.get?_eq_getElem?,
            List.getElem?_take_of_lt (by simp only [List.length_set]; omega),
            List.getElem?_set_self (by omega)]
        · rw [getD_set_ne _ _ (Ne.symm hjl)] at hj2
          have hb := hwf.slotBack j s' hj2
          have hs'lt : s' < st.backpointers.length :=
            (List.get?_eq_some.mp hb).1
          have hs'ne : s' ≠ s := by
            intro hcon
            exact hji (sparse_inj hwf hj2 (hcon ▸ h))
          have hs'last : s' ≠ st.dense.length - 1 := by
            intro hcon
            exact hjl (sparse_inj hwf hj2 (hcon ▸ hliSlot))
          rw [List.dropLast_eq_take, List.get?_eq_getElem?,
            List.getElem?_take_of_lt (by simp only [List.length_set]; omega),
            List.getElem?_set_ne (Ne.symm hs'ne), ← List.get?_eq_getElem?]
          exact hb
    · intro k j hk
      have hk2 : ((st.backpointers.set s li).dropLast).get? k = some j := hk
      show ((st.sparse.set li (some s)).set i none).getD j none = some k
      have hkb : k < st.backpointers.length - 1 := by
        have h1 := (List.get?_eq_some.mp hk2).1
        simp only [List.length_dropLast, List.length_set] at h1
        exact h1
      rw [List.dropLast_eq_take, List.get?_eq_getElem?,
        List.getElem?_take_of_lt (by simp only [List.length_set]; omega)]
        at hk2
      by_cases hks : k = s
      · subst hks
        rw [List.getElem?_set_self (by omega)] at hk2
        cases hk2
        have hlii : li ≠ i := by
          intro hcon
          rw [hcon, h] at hliSlot
          cases hliSlot
          omega
        rw [getD_set_ne _ _ (Ne.symm hlii), getD_set_self _ _ _ hliLen]
      · rw [List.getElem?_set_ne (Ne.symm hks), ← List.get?_eq_getElem?]
          at hk2
        have hsl := hwf.backSlot k j hk2
        have hji : j ≠ i := by
          intro hc
          rw [hc, h] at hsl
          cases hsl
          exact hks rfl
        have hjli : j ≠ li := by
          intro hc
          rw [hc, hliSlot] at hsl
          cases hsl
          omega
        rw [getD_set_ne _ _ (Ne.symm hji), getD_set_ne _ _ (Ne.symm hjli)]
        exact hsl

/-- `remove` reports success exactly on an occupied index. -/
lemma remove_true_of_occupied {V : Type} (st : SparseSetStorage V)
    {i s : Nat} (h : st.sparseGet i = some s) : (st.remove i).1 = true := by
  unfold SparseSetStorage.remove
  rw [h]
  cases hd : st.dense.getLast? <;> cases hb : st.backpointers.getLast? <;> rfl

/-- Removing occupies no new index: occupancy only shrinks. -/
lemma remove_occupied {V : Type} {st : SparseSetStorage V} {i j s' : Nat}
    (hwf : st.WF) (h : ((st.remove i).2).sparseGet j = some s') :
    j ≠ i ∧ ∃ k, st.sparseGet j = some k := by
  cases hcase : st.sparseGet i with
  | none =>
    rw [remove_eq_absent st hcase] at h
    refine ⟨?_, ⟨s', h⟩⟩
    intro hc
    rw [hc, hcase] at h
    cases h
  | some s =>
    obtain ⟨lv, li, hlv, hli, heq⟩ := remove_present_spec hwf hcase
    have hiLen : i < st.sparse.length := lt_length_of_sparseGet hcase
    rw [heq] at h
    have h2 : ((st.sparse.set li (some s)).set i none).getD j none
      = some s' := h
    by_cases hji : j = i
    · subst hji
      rw [getD_set_self _ _ _ (by simpa using hiLen)] at h2
      cases h2
    · refine ⟨hji, ?_⟩
      rw [getD_set_ne _ _ (Ne.symm hji)] at h2
      by_cases hjl : j = li
      · subst hjl
        exact ⟨st.dense.length - 1, hwf.backSlot _ _ hli⟩
      · rw [getD_set_ne _ _ (Ne.symm hjl)] at h2
        exact ⟨s', h2⟩

/-! ### Entity-allocator lemmas -/

/-- The liveness probe succeeds exactly on a generation match. -/
lemma checkGeneration_iff (es : Entities) (id : EntityId) :
    es.checkGeneration id = true ↔
      es.generations.get? id.index = some id.generation := by
  unfold Entities.checkGeneration
  exact beq_iff_eq

/-- The liveness probe fails exactly on a generation mismatch. -/
lemma checkGeneration_false_iff (es : Entities) (id : EntityId) :
    es.checkGeneration id = false ↔
      es.generations.get? id.index ≠ some id.generation := by
  unfold Entities.checkGeneration
  exact beq_eq_false_iff_ne

/-- A live id's index lies inside the generation table. -/
lemma checkGeneration_lt {es : Entities} {id : EntityId}
    (h : es.checkGeneration id = true) :
    id.index < es.generations.length := by
  rw [checkGeneration_iff] at h
  exact (List.get?_eq_some.mp h).1

/-- The stored generation of a live id is its own generation. -/
lemma checkGeneration_getD {es : Entities} {id : EntityId}
    (h : es.checkGeneration id = true) :
    es.generations.getD id.index 0 = id.generation := by
  rw [checkGeneration_iff] at h
  rw [List.getD_eq_getElem?_getD, ← List.get?_eq_getElem?, h]
  rfl

/-- `allocate` on a non-empty free list: pop and reuse the head. -/
lemma allocate_eq_reuse (es : Entities) {i : Nat} {rest : List Nat}
    (h : es.free = i :: rest) :
    es.allocate = (⟨i, es.generations.getD i 0⟩,
      ⟨es.generations, rest⟩) := by
  unfold Entities.allocate
  rw [h]

/-- `allocate` on an empty free list: append a fresh index at generation
zero. -/
lemma allocate_eq_fresh (es : Entities) (h : es.free = []) :
    es.allocate = (⟨es.generations.length, 0⟩,
      ⟨es.generations ++ [0], es.free⟩) := by
  unfold Entities.allocate
  rw [h]

/-- A freshly allocated id passes the liveness probe. -/
lemma allocate_check (es : Entities)
    (hf : ∀ i ∈ es.free, i < es.generations.length) :
    (es.allocate).2.checkGeneration (es.allocate).1 = true := by
  cases h : es.free with
  | nil =>
    rw [allocate_eq_fresh es h, checkGeneration_iff]
    exact List.get?_concat_length es.generations 0
  | cons i rest =>
    rw [allocate_eq_reuse es h, checkGeneration_iff]
    have hi : i < es.generations.length := hf i (by rw [h]; simp)
    rw [List.get?_eq_get hi]
    rw [List.getD_eq_getElem?_getD, ← List.get?_eq_getElem?,
      List.get?_eq_get hi]
    rfl

/-- `deallocate` of a live id: bump the stored generation modulo `2^32`
and push the index on the free list. -/
lemma deallocate_eq_some {es : Entities} {id : EntityId}
    (h : es.checkGeneration id = true) :
    es.deallocate id = some
      ⟨es.generations.set id.index
          ((es.generations.getD id.index 0 + 1) % u32Mod),
        id.index :: es.free⟩ := by
  unfold Entities.deallocate
  rw [h]
  rfl

/-- `deallocate` of a dead id fails. -/
lemma deallocate_eq_none {es : Entities} {id : EntityId}
    (h : es.checkGeneration id = false) :
    es.deallocate id = none := by
  unfold Entities.deallocate
  rw [h]
  rfl

/-- `deallocate` only succeeds on a live id. -/
lemma deallocate_some_check {es : Entities} {id : EntityId} {es' : Entities}
    (h : es.deallocate id = some es') : es.checkGeneration id = true := by
  by_contra hc
  rw [deallocate_eq_none (Bool.not_eq_true _ ▸ Bool.of_not_eq_true hc)] at h
  cases h

/-- After a successful `deallocate`, the id itself is dead: the stored
generation moved past it (`u32` wraparound cannot bring it back in one
step because generations stay below `2^32`). -/
lemma deallocate_kills {es : Entities} {id : EntityId} {es' : Entities}
    (hg : ∀ g ∈ es.generations, g < u32Mod)
    (h : es.deallocate id = some es') :
    es'.checkGeneration id = false := by
  have hch := deallocate_some_check h
  rw [deallocate_eq_some hch] at h
  cases h
  have hlt := checkGeneration_lt hch
  have hgd := checkGeneration_getD hch
  rw [checkGeneration_false_iff]
  show (es.generations.set id.index
    ((es.generations.getD id.index 0 + 1) % u32Mod)).get? id.index
    ≠ some id.generation
  rw [List.get?_eq_getElem?, List.getElem?_set_self hlt, hgd]
  intro hcon
  have hmem : id.generation ∈ es.generations := by
    rw [checkGeneration_iff] at hch
    exact List.get?_mem hch
  have hb := hg _ hmem
  have : (id.generation + 1) % u32Mod = id.generation :=
    Option.some.inj hcon
  simp only [u32Mod] at hb this
  omega

/-- A successful `deallocate` does not change the liveness of ids with a
different index. -/
lemma deallocate_check_other {es : Entities} {id : EntityId} {es' : Entities}
    (h : es.deallocate id = some es') (id2 : EntityId)
    (hne : id2.index ≠ id.index) :
    es'.checkGeneration id2 = es.checkGeneration id2 := by
  have hch := deallocate_some_check h
  rw [deallocate_eq_some hch] at h
  cases h
  unfold Entities.checkGeneration
  rw [List.get?_eq_getElem?, List.getElem?_set_ne (Ne.symm hne),
    ← List.get?_eq_getElem?]

/-! ### Storage-map (association list) lemmas -/

/-- Looking up the key just stored. -/
lemma lookupStorage_set_self {V : Type}
    (l : List (Nat × SparseSetStorage V)) (t : Nat)
    (st : SparseSetStorage V) :
    lookupStorage (setStorage l t st) t = some st := by
  induction l with
  | nil => simp [setStorage, lookupStorage]
  | cons p rest ih =>
    obtain ⟨k, s⟩ := p
    by_cases h : k = t
    · subst h
      simp [setStorage, lookupStorage]
    · simp only [setStorage, if_neg h, lookupStorage]
      exact ih

/-- Storing under one key leaves lookups of other keys unchanged. -/
lemma lookupStorage_set_ne {V : Type}
    (l : List (Nat × SparseSetStorage V)) {t t' : Nat}
    (st : SparseSetStorage V) (h : t' ≠ t) :
    lookupStorage (setStorage l t st) t' = lookupStorage l t' := by
  induction l with
  | nil => simp [setStorage, lookupStorage, Ne.symm h]
  | cons p rest ih =>
    obtain ⟨k, s⟩ := p
    by_cases hk : k = t
    · subst hk
      simp [setStorage, lookupStorage, Ne.symm h]
    · simp only [setStorage, if_neg hk, lookupStorage]
      by_cases hk' : k = t'
      · simp [hk']
      · simp [hk', ih]

/-- Writing back the exact storage a key already maps to changes nothing. -/
lemma setStorage_lookup_id {V : Type} {l : List (Nat × SparseSetStorage V)}
    {t : Nat} {st : SparseSetStorage V}
    (h : lookupStorage l t = some st) : setStorage l t st = l := by
  induction l with
  | nil => simp [lookupStorage] at h
  | cons p rest ih =>
    obtain ⟨k, s⟩ := p
    by_cases hk : k = t
    · subst hk
      simp only [lookupStorage, if_pos rfl] at h
      cases h
      simp [setStorage]
    · simp only [lookupStorage, if_neg hk] at h
      simp [setStorage, if_neg hk, ih h]

/-- Entries of the updated map: the stored pair or an original entry. -/
lemma mem_setStorage {V : Type} {l : List (Nat × SparseSetStorage V)}
    {t : Nat} {st : SparseSetStorage V} {p : Nat × SparseSetStorage V}
    (h : p ∈ setStorage l t st) : p = (t, st) ∨ p ∈ l := by
  induction l with
  | nil =>
    simp [setStorage] at h
    exact Or.inl h
  | cons q rest ih =>
    obtain ⟨k, s⟩ := q
    by_cases hk : k = t
    · subst hk
      simp only [setStorage, if_pos rfl] at h
      rcases List.mem_cons.mp h with h1 | h1
      · exact Or.inl h1
      · exact Or.inr (List.mem_cons_of_mem _ h1)
    · simp only [setStorage, if_neg hk] at h
      rcases List.mem_cons.mp h with h1 | h1
      · exact Or.inr (h1 ▸ List.mem_cons_self _ _)
      · rcases ih h1 with h2 | h2
        · exact Or.inl h2
        · exact Or.inr (List.mem_cons_of_mem _ h2)

/-- Mapping the values of the storage map commutes with lookup. -/
lemma lookupStorage_map {V : Type} (l : List (Nat × SparseSetStorage V))
    (t : Nat) (f : SparseSetStorage V → SparseSetStorage V) :
    lookupStorage (l.map fun p => (p.1, f p.2)) t
      = (lookupStorage l t).map f := by
  induction l with
  | nil => rfl
  | cons p rest ih =>
    obtain ⟨k, s⟩ := p
    by_cases hk : k = t
    · simp [lookupStorage, hk]
    · simp [lookupStorage, hk, ih]

/-- A successful lookup produces an entry of the map. -/
lemma lookupStorage_mem {V : Type} {l : List (Nat × SparseSetStorage V)}
    {t : Nat} {st : SparseSetStorage V}
    (h : lookupStorage l t = some st) : (t, st) ∈ l := by
  induction l with
  | nil => simp [lookupStorage] at h
  | cons p rest ih =>
    obtain ⟨k, s⟩ := p
    by_cases hk : k = t
    · subst hk
      simp only [lookupStorage, if_pos rfl] at h
      cases h
      exact List.mem_cons_self _ _
    · simp only [lookupStorage, if_neg hk] at h
      exact List.mem_cons_of_mem _ (ih h)

/-! ### `Ecs` operation equations -/

/-- `check_entity` delegates to the allocator's probe. -/
lemma checkEntity_eq {V : Type} (w : Ecs V) (e : EntityId) :
    w.checkEntity e = w.entities.checkGeneration e :=
  rfl

/-- `get` with no storage registered for the type. -/
lemma get_eq_none_storage {V : Type} {w : Ecs V} {t : Nat} (e : EntityId)
    (hl : lookupStorage w.components t = none) :
    w.get t e = .error (.MissingComponent t) := by
  unfold Ecs.get
  rw [hl]

/-- `get` with the type registered but the entity dead. -/
lemma get_eq_dead {V : Type} {w : Ecs V} {t : Nat} {e : EntityId}
    {st : SparseSetStorage V} (hl : lookupStorage w.components t = some st)
    (hc : w.checkEntity e = false) :
    w.get t e = .error (.MissingEntity ⟨⟩) := by
  unfold Ecs.get
  rw [hl, hc]
  rfl

/-- `get` finding a live entity's slot. -/
lemma get_eq_found_some {V : Type} {w : Ecs V} {t : Nat} {e : EntityId}
    {st : SparseSetStorage V} {v : V}
    (hl : lookupStorage w.components t = some st)
    (hc : w.checkEntity e = true) (hv : st.get e.index = some v) :
    w.get t e = .ok v := by
  simp [Ecs.get, hl, hc, hv]

/-- `get` on a live entity with no slot in the registered storage. -/
lemma get_eq_found_none {V : Type} {w : Ecs V} {t : Nat} {e : EntityId}
    {st : SparseSetStorage V} (hl : lookupStorage w.components t = some st)
    (hc : w.checkEntity e = true) (hv : st.get e.index = none) :
    w.get t e = .error (.MissingComponent t) := by
  simp [Ecs.get, hl, hc, hv]

/-- Inverting a successful `get`. -/
lemma get_ok_elim {V : Type} {w : Ecs V} {t : Nat} {e : EntityId} {v : V}
    (h : w.get t e = .ok v) :
    ∃ st, lookupStorage w.components t = some st ∧
      w.checkEntity e = true ∧ st.get e.index = some v := by
  cases hl : lookupStorage w.components t with
  | none => rw [get_eq_none_storage e hl] at h; cases h
  | some st =>
    cases hc : w.checkEntity e with
    | false => rw [get_eq_dead hl hc] at h; cases h
    | true =>
      cases hv : st.get e.index with
      | none => rw [get_eq_found_none hl hc hv] at h; cases h
      | some v' =>
        rw [get_eq_found_some hl hc hv] at h
        cases h
        exact ⟨st, rfl, rfl, hv⟩

/-- Two stores answer `get` identically when their storage, liveness and
slot agree. -/
lemma get_congr {V : Type} {w1 w2 : Ecs V} {t : Nat} {e2 : EntityId}
    {st1 st2 : SparseSetStorage V}
    (h1 : lookupStorage w1.components t = some st1)
    (h2 : lookupStorage w2.components t = some st2)
    (hc : w1.checkEntity e2 = w2.checkEntity e2)
    (hv : st1.get e2.index = st2.get e2.index) :
    w1.get t e2 = w2.get t e2 := by
  simp only [Ecs.get, h1, h2, hv, hc]

/-- `insert` on a live entity. -/
lemma insert_eq_ok {V : Type} {w : Ecs V} {t : Nat} {e : EntityId} (v : V)
    (h : w.checkEntity e = true) :
    w.insert t e v = (.ok (),
      ⟨setStorage w.components t
        (((lookupStorage w.components t).getD
          SparseSetStorage.empty).insert e.index v), w.entities⟩) := by
  unfold Ecs.insert
  rw [h]
  rfl

/-- `insert` on a dead entity: fail before touching storage. -/
lemma insert_eq_err {V : Type} {w : Ecs V} {t : Nat} {e : EntityId} (v : V)
    (h : w.checkEntity e = false) :
    w.insert t e v = (.error ⟨⟩, w) := by
  unfold Ecs.insert
  rw [h]
  rfl

/-- `remove` on a dead entity. -/
lemma remove_eq_dead {V : Type} {w : Ecs V} {t : Nat} {e : EntityId}
    (h : w.checkEntity e = false) :
    w.remove t e = (.error (.MissingEntity ⟨⟩), w) := by
  unfold Ecs.remove
  rw [h]
  rfl

/-- `remove` when the type was never stored. -/
lemma remove_eq_nostorage {V : Type} {w : Ecs V} {t : Nat} {e : EntityId}
    (h : w.checkEntity e = true)
    (hl : lookupStorage w.components t = none) :
    w.remove t e = (.error (.MissingComponent t), w) := by
  unfold Ecs.remove
  rw [h, hl]
  rfl

/-- The state `remove` leaves behind when it reaches the storage: the
storage's own result is written back whether or not a slot was found. -/
lemma remove_state {V : Type} {w : Ecs V} {t : Nat} {e : EntityId}
    {st : SparseSetStorage V} (h : w.checkEntity e = true)
    (hl : lookupStorage w.components t = some st) :
    (w.remove t e).2 =
      { w with components :=
          setStorage w.components t (st.remove e.index).2 } := by
  by_cases hb : (st.remove e.index).1 = true
  · simp [Ecs.remove, h, hl, hb]
  · simp [Ecs.remove, h, hl, hb]

/-- The result `remove` reports when it reaches the storage. -/
lemma remove_result {V : Type} {w : Ecs V} {t : Nat} {e : EntityId}
    {st : SparseSetStorage V} (h : w.checkEntity e = true)
    (hl : lookupStorage w.components t = some st) :
    (w.remove t e).1 = (if (st.remove e.index).1 = true then .ok ()
      else .error (.MissingComponent t)) := by
  by_cases hb : (st.remove e.index).1 = true
  · simp [Ecs.remove, h, hl, hb]
  · simp [Ecs.remove, h, hl, hb]

/-- `despawn` of a dead entity. -/
lemma despawn_eq_err {V : Type} {w : Ecs V} {e : EntityId}
    (h : w.entities.deallocate e = none) :
    w.despawn e = (.error ⟨⟩, w) := by
  unfold Ecs.despawn
  rw [h]

/-- `despawn` of a live entity: deallocate, then sweep every storage. -/
lemma despawn_eq_ok {V : Type} {w : Ecs V} {e : EntityId} {es' : Entities}
    (h : w.entities.deallocate e = some es') :
    w.despawn e = (.ok (),
      ⟨w.components.map fun p => (p.1, (p.2.remove e.index).2), es'⟩) := by
  unfold Ecs.despawn
  rw [h]

/-- `spawn_empty` delegates to the allocator. -/
lemma spawnEmpty_def {V : Type} (w : Ecs V) :
    w.spawnEmpty = ((w.entities.allocate).1,
      { w with entities := (w.entities.allocate).2 }) :=
  rfl

/-- A failing `deallocate` means the probe failed. -/
lemma deallocate_none_check {es : Entities} {id : EntityId}
    (h : es.deallocate id = none) : es.checkGeneration id = false := by
  cases hc : es.checkGeneration id with
  | false => rfl
  | true => rw [deallocate_eq_some hc] at h; cases h

/-- `despawn` succeeds exactly on live entities. -/
lemma despawn_ok_iff {V : Type} (w : Ecs V) (e : EntityId) :
    (w.despawn e).1 = .ok () ↔ w.entities.checkGeneration e = true := by
  constructor
  · intro h
    cases hd : w.entities.deallocate e with
    | none => rw [despawn_eq_err hd] at h; cases h
    | some es' => exact deallocate_some_check hd
  · intro h
    rw [despawn_eq_ok (deallocate_eq_some h)]

/-! ### `Ecs`-level preservation lemmas -/

/-- `insert` keeps every storage well-formed. -/
lemma storagesWF_insert {V : Type} {w : Ecs V} (t : Nat) (e : EntityId)
    (v : V) (hwf : w.StoragesWF) : ((w.insert t e v).2).StoragesWF := by
  cases hc : w.checkEntity e with
  | false =>
    rw [insert_eq_err v hc]
    exact hwf
  | true =>
    rw [insert_eq_ok v hc]
    intro p hp
    rcases mem_setStorage hp with h1 | h1
    · subst h1
      show (((lookupStorage w.components t).getD
        SparseSetStorage.empty).insert e.index v).WF
      cases hl : lookupStorage w.components t with
      | none => exact insert_WF _ _ (wf_empty_storage V)
      | some st => exact insert_WF _ _ (hwf _ (lookupStorage_mem hl))
    · exact hwf _ h1

/-- `remove` keeps every storage well-formed. -/
lemma storagesWF_remove {V : Type} {w : Ecs V} (t : Nat) (e : EntityId)
    (hwf : w.StoragesWF) : ((w.remove t e).2).StoragesWF := by
  cases hc : w.checkEntity e with
  | false =>
    rw [remove_eq_dead hc]
    exact hwf
  | true =>
    cases hl : lookupStorage w.components t with
    | none =>
      rw [remove_eq_nostorage hc hl]
      exact hwf
    | some st =>
      rw [remove_state hc hl]
      intro p hp
      rcases mem_setStorage hp with h1 | h1
      · subst h1
        exact remove_WF _ (hwf _ (lookupStorage_mem hl))
      · exact hwf _ h1

/-- `despawn` keeps every storage well-formed. -/
lemma storagesWF_despawn {V : Type} {w : Ecs V} (e : EntityId)
    (hwf : w.StoragesWF) : ((w.despawn e).2).StoragesWF := by
  cases hd : w.entities.deallocate e with
  | none =>
    rw [despawn_eq_err hd]
    exact hwf
  | some es' =>
    rw [despawn_eq_ok hd]
    intro p hp
    rcases List.mem_map.mp hp with ⟨q, hq, hpq⟩
    subst hpq
    exact remove_WF _ (hwf _ hq)

/-- `spawn_empty` keeps every storage well-formed. -/
lemma storagesWF_spawn {V : Type} {w : Ecs V} (hwf : w.StoragesWF) :
    ((w.spawnEmpty).2).StoragesWF := by
  rw [spawnEmpty_def]
  exact hwf

/-- A same-type `remove` of one entity does not disturb another entity's
`get`. -/
lemma get_after_remove {V : Type} {w : Ecs V} {t : Nat} {e e2 : EntityId}
    (hwf : w.StoragesWF) (hne : e2.index ≠ e.index) :
    ((w.remove t e).2).get t e2 = w.get t e2 := by
  cases hc : w.checkEntity e with
  | false => rw [remove_eq_dead hc]
  | true =>
    cases hl : lookupStorage w.components t with
    | none => rw [remove_eq_nostorage hc hl]
    | some st =>
      rw [remove_state hc hl]
      exact get_congr (lookupStorage_set_self _ _ _) hl rfl
        (remove_get_other (hwf _ (lookupStorage_mem hl)) hne)

/-- `despawn` of one entity does not disturb another entity's `get`. -/
lemma get_after_despawn {V : Type} {w : Ecs V} {t : Nat} {e e2 : EntityId}
    (hwf : w.StoragesWF) (hne : e2.index ≠ e.index) :
    ((w.despawn e).2).get t e2 = w.get t e2 := by
  cases hd : w.entities.deallocate e with
  | none => rw [despawn_eq_err hd]
  | some es' =>
    rw [despawn_eq_ok hd]
    have hmap := lookupStorage_map w.components t
      fun s => (s.remove e.index).2
    cases hl : lookupStorage w.components t with
    | none =>
      rw [hl] at hmap
      have hmap' : lookupStorage (w.components.map fun p =>
          (p.1, (p.2.remove e.index).2)) t = none := hmap
      rw [get_eq_none_storage e2 hl, get_eq_none_storage e2 hmap']
    | some st =>
      rw [hl] at hmap
      have hmap' : lookupStorage (w.components.map fun p =>
          (p.1, (p.2.remove e.index).2)) t
          = some ((st.remove e.index).2) := hmap
      refine get_congr hmap' hl ?_
        (remove_get_other (hwf _ (lookupStorage_mem hl)) hne)
      show es'.checkGeneration e2 = w.entities.checkGeneration e2
      exact deallocate_check_other hd e2 hne


/-! ### Claim theorems -/

/-- C1: for every live entity `e` (an entity on which `insert` succeeds)
and every component type `t` with value `v`, `Ecs::insert(e, v)` followed
by `Ecs::get::<T>(e)` returns `Ok` with a value equal to `v`. -/
theorem C1_insert_then_get {V : Type} (w : Ecs V) (t : Nat) (e : EntityId)
    (v : V) (hwf : w.StoragesWF) (hok : (w.insert t e v).1 = .ok ()) :
    ((w.insert t e v).2).get t e = .ok v := by
  cases hc : w.checkEntity e with
  | false =>
    rw [insert_eq_err v hc] at hok
    cases hok
  | true =>
    rw [insert_eq_ok v hc]
    have hstwf :
        ((lookupStorage w.components t).getD SparseSetStorage.empty).WF := by
      cases hl : lookupStorage w.components t with
      | none => exact wf_empty_storage V
      | some st => exact hwf _ (lookupStorage_mem hl)
    exact get_eq_found_some (lookupStorage_set_self _ _ _) hc
      (insert_get_self _ _ hstwf)

/-- Witness for C1 at a concrete store: inserting 42 under type 7 on the
freshly spawned entity and reading it back. -/
theorem C1_insert_then_get_witness :
    ((demoW1.insert 7 demoE 42).2).get 7 demoE = .ok 42 :=
  C1_insert_then_get demoW1 7 demoE 42
    (fun p hp => absurd hp (List.not_mem_nil p)) (by rfl)

/-- C4: for every live entity `e` and component type `t`,
`insert(e, v1)` then `insert(e, v2)` then `get::<T>(e)` yields `v2`; the
second insert overwrites in place, creating no duplicate slot, and the
dense array length is unchanged by the second call. -/
theorem C4_insert_overwrites {V : Type} (w : Ecs V) (t : Nat) (e : EntityId)
    (v1 v2 : V) (hwf : w.StoragesWF) (hok : (w.insert t e v1).1 = .ok ()) :
    (((w.insert t e v1).2).insert t e v2).2.get t e = .ok v2 ∧
    ∃ st1 st2,
      lookupStorage ((w.insert t e v1).2).components t = some st1 ∧
      lookupStorage ((((w.insert t e v1).2).insert t e v2).2).components t
        = some st2 ∧
      st2.dense.length = st1.dense.length := by
  cases hc : w.checkEntity e with
  | false =>
    rw [insert_eq_err v1 hc] at hok
    cases hok
  | true =>
    have hst0wf :
        ((lookupStorage w.components t).getD SparseSetStorage.empty).WF := by
      cases hl : lookupStorage w.components t with
      | none => exact wf_empty_storage V
      | some st => exact hwf _ (lookupStorage_mem hl)
    obtain ⟨s, hs⟩ := insert_sparseGet_self
      ((lookupStorage w.components t).getD SparseSetStorage.empty) e.index v1
    have hw1 : (w.insert t e v1).2 =
        ⟨setStorage w.components t
          (((lookupStorage w.components t).getD
            SparseSetStorage.empty).insert e.index v1), w.entities⟩ := by
      rw [insert_eq_ok v1 hc]
    have hl1 : lookupStorage ((w.insert t e v1).2).components t =
        some (((lookupStorage w.components t).getD
          SparseSetStorage.empty).insert e.index v1) := by
      rw [hw1]
      exact lookupStorage_set_self _ _ _
    have hc1 : ((w.insert t e v1).2).checkEntity e = true := by
      rw [hw1]
      exact hc
    have hw2 : (((w.insert t e v1).2).insert t e v2).2 =
        ⟨setStorage ((w.insert t e v1).2).components t
          ((((lookupStorage w.components t).getD
            SparseSetStorage.empty).insert e.index v1).insert e.index v2),
          ((w.insert t e v1).2).entities⟩ := by
      rw [insert_eq_ok v2 hc1, hl1]
      rfl
    constructor
    · rw [hw2]
      exact get_eq_found_some (lookupStorage_set_self _ _ _) hc1
        (insert_get_self _ _ (insert_WF _ _ hst0wf))
    · refine ⟨((lookupStorage w.components t).getD
          SparseSetStorage.empty).insert e.index v1,
        (((lookupStorage w.components t).getD
          SparseSetStorage.empty).insert e.index v1).insert e.index v2,
        hl1, ?_, ?_⟩
      · rw [hw2]
        exact lookupStorage_set_self _ _ _
      · exact insert_dense_length_occupied _ v2 hs

/-- Witness for C4 at a concrete store: 42 then 43 under type 7. -/
theorem C4_insert_overwrites_witness :
    ((demoW1.insert 7 demoE 42).2.insert 7 demoE 43).2.get 7 demoE
      = .ok 43 ∧
    ∃ st1 st2,
      lookupStorage ((demoW1.insert 7 demoE 42).2).components 7 = some st1 ∧
      lookupStorage (((demoW1.insert 7 demoE 42).2).insert 7 demoE
        43).2.components 7 = some st2 ∧
      st2.dense.length = st1.dense.length :=
  C4_insert_overwrites demoW1 7 demoE 42 43
    (fun p hp => absurd hp (List.not_mem_nil p)) (by rfl)

/-- C7: every mutating operation is atomic from the caller's perspective:
whenever `Ecs::insert` or `Ecs::remove` returns an error the entire store
state is unchanged, and in particular a failed insert for a
never-registered type does not lazily create that type's storage. -/
theorem C7_error_atomicity {V : Type} (w : Ecs V) (t : Nat) (e : EntityId)
    (v : V) :
    (∀ d, (w.insert t e v).1 = .error d → (w.insert t e v).2 = w) ∧
    (∀ c, (w.remove t e).1 = .error c → (w.remove t e).2 = w) ∧
    (lookupStorage w.components t = none →
      ∀ d, (w.insert t e v).1 = .error d →
        lookupStorage ((w.insert t e v).2).components t = none) := by
  have hins : ∀ d, (w.insert t e v).1 = .error d → (w.insert t e v).2 = w := by
    intro d hd
    cases hc : w.checkEntity e with
    | true =>
      rw [insert_eq_ok v hc] at hd
      cases hd
    | false =>
      rw [insert_eq_err v hc]
  refine ⟨hins, ?_, ?_⟩
  · intro c hcres
    cases hc : w.checkEntity e with
    | false => rw [remove_eq_dead hc]
    | true =>
      cases hl : lookupStorage w.components t with
      | none => rw [remove_eq_nostorage hc hl]
      | some st =>
        cases hsp : st.sparseGet e.index with
        | some s =>
          rw [remove_result hc hl, if_pos (remove_true_of_occupied st hsp)]
            at hcres
          cases hcres
        | none =>
          have h2 : (st.remove e.index).2 = st := by
            rw [remove_eq_absent st hsp]
          rw [remove_state hc hl, h2, setStorage_lookup_id hl]
  · intro hl d hd
    rw [hins d hd]
    exact hl

/-- Witness for C7 at a concrete store: both operations fail on a dead id
and leave the empty store untouched, creating no storage for type 0. -/
theorem C7_error_atomicity_witness :
    ((Ecs.empty Nat).insert 0 ⟨0, 0⟩ 5).2 = Ecs.empty Nat ∧
    ((Ecs.empty Nat).remove 0 ⟨0, 0⟩).2 = Ecs.empty Nat ∧
    lookupStorage (((Ecs.empty Nat).insert 0 ⟨0, 0⟩ 5).2).components 0
      = none :=
  ⟨(C7_error_atomicity (Ecs.empty Nat) 0 ⟨0, 0⟩ 5).1 ⟨⟩ (by rfl),
    (C7_error_atomicity (Ecs.empty Nat) 0 ⟨0, 0⟩ 5).2.1
      (.MissingEntity ⟨⟩) (by rfl),
    (C7_error_atomicity (Ecs.empty Nat) 0 ⟨0, 0⟩ 5).2.2 (by rfl) ⟨⟩ (by rfl)⟩

/-- C8: for every live entity `e` holding a component of type `t`
(equivalently, `get` succeeds), the first `Ecs::remove` succeeds and an
immediately following second remove fails with `MissingComponent`;
`remove` also fails with `MissingComponent` when the type's storage was
never created or the entity has no slot in it. -/
theorem C8_remove_twice {V : Type} (w : Ecs V) (t : Nat) (e : EntityId)
    (v : V) :
    (w.get t e = .ok v →
      (w.remove t e).1 = .ok () ∧
      (((w.remove t e).2).remove t e).1 = .error (.MissingComponent t)) ∧
    (w.checkEntity e = true → lookupStorage w.components t = none →
      (w.remove t e).1 = .error (.MissingComponent t)) ∧
    (∀ st, w.checkEntity e = true →
      lookupStorage w.components t = some st →
      st.sparseGet e.index = none →
      (w.remove t e).1 = .error (.MissingComponent t)) := by
  refine ⟨?_, ?_, ?_⟩
  · intro hget
    obtain ⟨st, hl, hc, hv⟩ := get_ok_elim hget
    have hsp : ∃ s, st.sparseGet e.index = some s := by
      rw [get_eq] at hv
      cases hsp : st.sparseGet e.index with
      | none => rw [hsp] at hv; cases hv
      | some s => exact ⟨s, rfl⟩
    obtain ⟨s, hsp⟩ := hsp
    constructor
    · rw [remove_result hc hl, if_pos (remove_true_of_occupied st hsp)]
    · have hstate := remove_state hc hl
      have hl2 : lookupStorage ((w.remove t e).2).components t
          = some ((st.remove e.index).2) := by
        rw [hstate]
        exact lookupStorage_set_self _ _ _
      have hc2 : ((w.remove t e).2).checkEntity e = true := by
        rw [hstate]
        exact hc
      rw [remove_result hc2 hl2, if_neg (by
        rw [remove_eq_absent _ (remove_sparseGet_self st e.index)]
        simp)]
  · intro hc hl
    rw [remove_eq_nostorage hc hl]
  · intro st hc hl hsp
    rw [remove_result hc hl, if_neg (by rw [remove_eq_absent st hsp]; simp)]

/-- Witness for C8 at a concrete store: removing type 7 from the entity
succeeds once then fails; removing never-registered type 9 fails; removing
type 7 from a freshly respawned entity with no slot fails. -/
theorem C8_remove_twice_witness :
    ((demoW2.remove 7 demoE).1 = .ok () ∧
      ((demoW2.remove 7 demoE).2.remove 7 demoE).1
        = .error (.MissingComponent 7)) ∧
    (demoW2.remove 9 demoE).1 = .error (.MissingComponent 9) ∧
    (((demoW2.spawnEmpty).2).remove 7 ((demoW2.spawnEmpty).1)).1
      = .error (.MissingComponent 7) := by
  refine ⟨(C8_remove_twice demoW2 7 demoE 42).1 (by rfl), ?_, ?_⟩
  · exact (C8_remove_twice demoW2 9 demoE 42).2.1 (by rfl) (by rfl)
  · exact (C8_remove_twice (demoW2.spawnEmpty).2 7 ((demoW2.spawnEmpty).1)
      42).2.2 ⟨[some 0], [42], [0]⟩ (by rfl) (by rfl) (by rfl)

/-- In a fully well-formed store the id `allocate` is about to hand out
has no slot in any registered storage (fresh indices are out of range,
reused indices were purged). -/
lemma allocate_fresh_unoccupied {V : Type} {w : Ecs V} (hwf : w.WF)
    {t : Nat} {st : SparseSetStorage V}
    (hl : lookupStorage w.components t = some st) :
    st.sparseGet ((w.entities.allocate).1).index = none := by
  cases hsp : st.sparseGet ((w.entities.allocate).1).index with
  | none => rfl
  | some s =>
    exfalso
    obtain ⟨hlt, hnf⟩ := hwf.occLive _ (lookupStorage_mem hl) _ _ hsp
    cases hf : w.entities.free with
    | nil =>
      rw [allocate_eq_fresh _ hf] at hlt
      simp at hlt
    | cons i rest =>
      rw [allocate_eq_reuse _ hf] at hnf
      rw [hf] at hnf
      simp at hnf

/-- The demonstration store `demoW2` is fully well-formed. -/
lemma demoW2_wf : demoW2.WF := by
  have h : demoW2 = ⟨[(7, ⟨[some 0], [42], [0]⟩)], ⟨[0], []⟩⟩ := by rfl
  rw [h]
  refine ⟨?_, ?_, ?_, ?_, ?_⟩
  · intro g hg
    rw [List.mem_singleton] at hg
    subst hg
    decide
  · intro i hi
    cases hi
  · exact List.nodup_nil
  · intro p hp
    rw [List.mem_singleton] at hp
    subst hp
    exact wf_of_wfb (by decide)
  · intro p hp
    rw [List.mem_singleton] at hp
    subst hp
    intro i s hsp
    have hi : i < 1 := lt_length_of_sparseGet hsp
    exact ⟨hi, by simp⟩

/-- C9: for every entity freshly returned by `spawn_empty` with no
subsequent insertions, `Ecs::get::<T>` on it fails with
`MissingComponent` for every component type `T`. -/
theorem C9_fresh_entity_missing {V : Type} (w : Ecs V) (hwf : w.WF)
    (t : Nat) :
    ((w.spawnEmpty).2).get t ((w.spawnEmpty).1)
      = .error (.MissingComponent t) := by
  cases hl : lookupStorage w.components t with
  | none => exact get_eq_none_storage _ hl
  | some st =>
    refine get_eq_found_none hl (allocate_check w.entities hwf.freeRange) ?_
    show (st.sparseGet ((w.entities.allocate).1).index).bind
      (fun s => st.dense.get? s) = none
    rw [allocate_fresh_unoccupied hwf hl]
    rfl

/-- Witness for C9: reads of both a registered and an unregistered type on
a freshly spawned second entity fail with `MissingComponent`. -/
theorem C9_fresh_entity_missing_witness :
    ((demoW2.spawnEmpty).2).get 7 ((demoW2.spawnEmpty).1)
      = .error (.MissingComponent 7) :=
  C9_fresh_entity_missing demoW2 demoW2_wf 7

/-- C2 (amended): for a dead entity, `insert`, `remove` and `despawn` fail
with `EntityDead` (`remove` wrapping it as `MissingEntity`), and `get`
fails with `MissingEntity` wrapping `EntityDead` **provided the storage
for the requested type exists** — the storage lookup precedes the
liveness check, so for a never-registered type `get` fails with
`MissingComponent` instead; after a successful `despawn(e)`, `e` is dead,
so all of the above apply to it. -/
theorem C2_dead_entity_errors {V : Type} (w : Ecs V) (t : Nat)
    (e : EntityId) (v : V) :
    (w.entities.checkGeneration e = false →
      (lookupStorage w.components t = none →
        w.get t e = .error (.MissingComponent t)) ∧
      (∀ st, lookupStorage w.components t = some st →
        w.get t e = .error (.MissingEntity ⟨⟩)) ∧
      (w.insert t e v).1 = .error ⟨⟩ ∧
      (w.remove t e).1 = .error (.MissingEntity ⟨⟩) ∧
      (w.despawn e).1 = .error ⟨⟩) ∧
    ((∀ g ∈ w.entities.generations, g < u32Mod) →
      (w.despawn e).1 = .ok () →
      ((w.despawn e).2).entities.checkGeneration e = false) := by
  constructor
  · intro hc
    refine ⟨fun hl => get_eq_none_storage e hl,
      fun st hl => get_eq_dead hl hc, ?_, ?_, ?_⟩
    · rw [insert_eq_err v hc]
    · rw [remove_eq_dead hc]
    · rw [despawn_eq_err (deallocate_eq_none hc)]
  · intro hg hok
    cases hd : w.entities.deallocate e with
    | none =>
      rw [despawn_eq_err hd] at hok
      cases hok
    | some es' =>
      rw [despawn_eq_ok hd]
      exact deallocate_kills hg hd

/-- Witness for C2's amended statement on the despawned store `demoW3`:
every operation fails as described, and the despawn killed the id. -/
theorem C2_dead_entity_errors_witness :
    demoW3.get 9 demoE = .error (.MissingComponent 9) ∧
    demoW3.get 7 demoE = .error (.MissingEntity ⟨⟩) ∧
    (demoW3.insert 7 demoE 5).1 = .error ⟨⟩ ∧
    (demoW3.remove 7 demoE).1 = .error (.MissingEntity ⟨⟩) ∧
    (demoW3.despawn demoE).1 = .error ⟨⟩ ∧
    ((demoW2.despawn demoE).2).entities.checkGeneration demoE = false := by
  have h7 := (C2_dead_entity_errors demoW3 7 demoE 5).1 (by rfl)
  have h9 := (C2_dead_entity_errors demoW3 9 demoE 5).1 (by rfl)
  exact ⟨h9.1 (by rfl), h7.2.1 ⟨[none], [], []⟩ (by rfl), h7.2.2.1,
    h7.2.2.2.1, h7.2.2.2.2,
    (C2_dead_entity_errors demoW2 7 demoE 5).2 (by decide) (by rfl)⟩

/-- Counterexample to C2 as stated: after a successful despawn, `get` for
a type whose storage was never created fails with `MissingComponent`, not
with `MissingEntity`/`EntityDead` — the storage lookup runs before the
liveness check in `Ecs::get`. -/
theorem C2_get_order_counterexample :
    (demoW1.despawn demoE).1 = .ok () ∧
    ((demoW1.despawn demoE).2).get 0 demoE
      = .error (.MissingComponent 0) ∧
    ComponentError.MissingComponent 0 ≠ .MissingEntity ⟨⟩ :=
  ⟨rfl, rfl, by decide⟩

/-- Allocator-level core of generation non-aliasing: allocate, deallocate,
allocate again reuses the index with the generation bumped modulo `2^32`,
and the old generation was a `u32` value. -/
lemma spawn_despawn_spawn_gen (es : Entities)
    (hg : ∀ g ∈ es.generations, g < u32Mod)
    (hf : ∀ i ∈ es.free, i < es.generations.length) :
    ∀ e1 es1, es.allocate = (e1, es1) →
    ∀ es2, es1.deallocate e1 = some es2 →
    ∀ e2 es3, es2.allocate = (e2, es3) →
    e2.index = e1.index ∧
    e2.generation = (e1.generation + 1) % u32Mod ∧
    e1.generation < u32Mod := by
  intro e1 es1 hA es2 hD e2 es3 hA2
  have hc1 : es1.checkGeneration e1 = true := by
    have hch := allocate_check es hf
    rw [hA] at hch
    exact hch
  have hgd := checkGeneration_getD hc1
  have hlt := checkGeneration_lt hc1
  rw [deallocate_eq_some hc1] at hD
  cases hD
  rw [allocate_eq_reuse _ rfl] at hA2
  cases hA2
  refine ⟨rfl, ?_, ?_⟩
  · show (es1.generations.set e1.index
      ((es1.generations.getD e1.index 0 + 1) % u32Mod)).getD e1.index 0
      = (e1.generation + 1) % u32Mod
    rw [getD_set_eq_of_lt _ _ _ _ hlt, hgd]
  · have hmem : e1.generation ∈ es1.generations := by
      rw [checkGeneration_iff] at hc1
      exact List.get?_mem hc1
    cases hfree : es.free with
    | nil =>
      rw [allocate_eq_fresh es hfree] at hA
      cases hA
      rcases List.mem_append.mp hmem with hm | hm
      · exact hg _ hm
      · rw [List.mem_singleton] at hm
        rw [hm]
        decide
    | cons i rest =>
      rw [allocate_eq_reuse es hfree] at hA
      cases hA
      exact hg _ hmem

/-- C5: generation non-aliasing: for `e1 = spawn_empty(); despawn(e1);
e2 = spawn_empty()`, if `e2.index == e1.index` then
`e2.generation != e1.generation`; and at every point at most one live
`EntityId` exists for a given index — any two ids passing the liveness
probe with the same index are the same id. -/
theorem C5_generation_non_aliasing :
    (∀ (V : Type) (w : Ecs V),
      (∀ g ∈ w.entities.generations, g < u32Mod) →
      (∀ i ∈ w.entities.free, i < w.entities.generations.length) →
      (((w.spawnEmpty).2).despawn ((w.spawnEmpty).1)).1 = .ok () →
      ((((w.spawnEmpty).2).despawn
          ((w.spawnEmpty).1)).2.spawnEmpty).1.index
        = ((w.spawnEmpty).1).index →
      ((((w.spawnEmpty).2).despawn
          ((w.spawnEmpty).1)).2.spawnEmpty).1.generation
        ≠ ((w.spawnEmpty).1).generation) ∧
    (∀ (es : Entities) (a b : EntityId),
      es.checkGeneration a = true → es.checkGeneration b = true →
      a.index = b.index → a = b) := by
  constructor
  · intro V w hg hf hok _hidx
    cases hd : ((w.spawnEmpty).2).entities.deallocate ((w.spawnEmpty).1)
      with
    | none =>
      rw [despawn_eq_err hd] at hok
      cases hok
    | some es2 =>
      have hmain := spawn_despawn_spawn_gen w.entities hg hf
        ((w.spawnEmpty).1) (((w.spawnEmpty).2).entities) rfl es2 hd
        ((es2.allocate).1) ((es2.allocate).2) rfl
      obtain ⟨_, hgen, hlt⟩ := hmain
      rw [despawn_eq_ok hd]
      show ((es2.allocate).1).generation ≠ ((w.spawnEmpty).1).generation
      rw [hgen]
      intro hcon
      simp only [u32Mod] at hcon hlt
      omega
  · intro es a b ha hb hidx
    rw [checkGeneration_iff] at ha hb
    rw [← hidx] at hb
    rw [ha] at hb
    cases a with
    | mk ia ga =>
      cases b with
      | mk ib gb =>
        simp only at hidx
        cases hb
        rw [hidx]

/-- Witness for C5: the concrete spawn–despawn–spawn chain from the empty
store reuses index 0 at generation 1 ≠ 0, and two probe-passing ids with
equal index coincide. -/
theorem C5_generation_non_aliasing_witness :
    (((((Ecs.empty Nat).spawnEmpty).2).despawn
        (((Ecs.empty Nat).spawnEmpty).1)).2.spawnEmpty).1.generation
      ≠ ((((Ecs.empty Nat).spawnEmpty)).1).generation ∧
    (⟨0, 5⟩ : EntityId) = ⟨0, 5⟩ := by
  constructor
  · exact (C5_generation_non_aliasing).1 Nat (Ecs.empty Nat)
      (by intro g hg; cases hg) (by intro i hi; cases hi) (by rfl) (by rfl)
  · exact (C5_generation_non_aliasing).2 ⟨[5], []⟩ ⟨0, 5⟩ ⟨0, 5⟩
      (by rfl) (by rfl) (by rfl)

/-- C10 (code bug): `ChunkPosition::manhattan_distance` subtracts
`other.z` in its first term where its doc comment promises the Manhattan
distance, which needs `other.x`; at `a = (0, 0)`, `b = (1, 0)` the code
returns 0 while the Manhattan distance is 1. -/
theorem C10_manhattan_distance_bug :
    ChunkPosition.manhattan_distance ⟨0, 0⟩ ⟨1, 0⟩ = 0 ∧
    ChunkPosition.manhattanSpec ⟨0, 0⟩ ⟨1, 0⟩ = 1 ∧
    ChunkPosition.manhattan_distance ⟨0, 0⟩ ⟨1, 0⟩
      ≠ ChunkPosition.manhattanSpec ⟨0, 0⟩ ⟨1, 0⟩ :=
  ⟨by decide, by decide, by decide⟩

/-- One step of the kill fold, unfolded. -/
lemma applyKills_cons {V : Type} (w : Ecs V) (t : Nat) (b : Bool)
    (ke : EntityId) (rest : List (Bool × EntityId)) :
    w.applyKills t ((b, ke) :: rest) =
      (if b then (w.despawn ke).2 else (w.remove t ke).2).applyKills t rest :=
  rfl

/-- C3: for every store holding a component value for an entity, removing
any set of other entities — in any order, via `Ecs::remove` of the same
type or via `Ecs::despawn` — leaves the surviving entity's component value
unchanged (swap-remove correctness under interleaving). -/
theorem C3_swap_remove_interleaving {V : Type} (w : Ecs V) (t : Nat)
    (kills : List (Bool × EntityId)) (e : EntityId) (v : V)
    (hwf : w.StoragesWF) (hget : w.get t e = .ok v)
    (hsurv : ∀ k ∈ kills, (k.2).index ≠ e.index) :
    (w.applyKills t kills).get t e = .ok v := by
  induction kills generalizing w with
  | nil => exact hget
  | cons k rest ih =>
    obtain ⟨b, ke⟩ := k
    have hne : e.index ≠ ke.index :=
      fun hc => (hsurv (b, ke) (List.mem_cons_self _ _)) hc.symm
    have hsurv' : ∀ k' ∈ rest, (k'.2).index ≠ e.index :=
      fun k' hk => hsurv k' (List.mem_cons_of_mem _ hk)
    rw [applyKills_cons]
    cases b with
    | false =>
      rw [if_neg (by simp)]
      exact ih _ (storagesWF_remove t ke hwf)
        (by rw [get_after_remove hwf hne]; exact hget) hsurv'
    | true =>
      rw [if_pos rfl]
      exact ih _ (storagesWF_despawn ke hwf)
        (by rw [get_after_despawn hwf hne]; exact hget) hsurv'

/-- Witness for C3: three entities holding 10, 11, 12 under type 1;
removing the second's component and despawning the first leaves the
third's value 12 intact. -/
theorem C3_swap_remove_interleaving_witness :
    ((demoTrio.1).applyKills 1 demoKills).get 1 (demoTrio.2.2.2)
      = .ok 12 := by
  refine C3_swap_remove_interleaving demoTrio.1 1 demoKills
    (demoTrio.2.2.2) 12 ?_ (by rfl) (by decide)
  intro p hp
  have hp2 : p ∈ [((1 : Nat),
      (⟨[some 0, some 1, some 2], [10, 11, 12],
        [0, 1, 2]⟩ : SparseSetStorage Nat))] := hp
  rw [List.mem_singleton] at hp2
  subst hp2
  exact wf_of_wfb (by decide)

/-! ### Trace-invariant lemmas for the store-wide liveness property -/

/-- The invariant is monotone in the step bound. -/
lemma TraceInv.mono {V : Type} {ts : Trace V} {n m : Nat}
    (h : TraceInv ts n) (hnm : n ≤ m) : TraceInv ts m :=
  ⟨fun g hg => le_trans (h.gensBound g hg) hnm, h.issuedOk, h.freeRange,
    h.freeNodup, h.storages, h.occLive, h.liveIssued⟩

/-- An issued id passing the liveness probe owns an allocated (non-free)
index: the heart of why callers cannot resurrect freed slots. -/
lemma TraceInv.issued_live_not_free {V : Type} {ts : Trace V} {n : Nat}
    (hinv : TraceInv ts n) {id : EntityId} (hid : id ∈ ts.issued)
    (hch : ts.w.entities.checkGeneration id = true) :
    id.index ∉ ts.w.entities.free := by
  obtain ⟨g, hg, _hle, hstrict⟩ := hinv.issuedOk id hid
  rw [checkGeneration_iff] at hch
  rw [hch] at hg
  cases hg
  intro hmem
  exact absurd (hstrict hmem) (lt_irrefl _)

/-- The fresh store satisfies the invariant at step 0. -/
lemma traceInv_init (V : Type) : TraceInv (Trace.init V) 0 := by
  constructor
  · intro g hg
    cases hg
  · intro id hid
    cases hid
  · intro i hi
    cases hi
  · exact List.nodup_nil
  · intro p hp
    cases hp
  · intro p hp
    cases hp
  · intro i g hg _
    cases hg

/-- `spawn_empty` preserves the invariant, recording the new id. -/
lemma traceInv_spawn {V : Type} {ts : Trace V} {n : Nat}
    (hinv : TraceInv ts n) :
    TraceInv (⟨(ts.w.spawnEmpty).2,
      ts.issued ++ [(ts.w.spawnEmpty).1]⟩ : Trace V) (n + 1) := by
  cases hf : ts.w.entities.free with
  | nil =>
    have hA := allocate_eq_fresh ts.w.entities hf
    rw [spawnEmpty_def, hA]
    constructor
    · intro g hg
      rcases List.mem_append.mp hg with hm | hm
      · exact le_trans (hinv.gensBound g hm) (Nat.le_succ n)
      · rw [List.mem_singleton] at hm
        rw [hm]
        exact Nat.zero_le _
    · intro id hid
      rcases List.mem_append.mp hid with hm | hm
      · obtain ⟨g, hg, hle, hstrict⟩ := hinv.issuedOk id hm
        refine ⟨g, ?_, hle, ?_⟩
        · rw [List.get?_append (List.get?_eq_some.mp hg).1]
          exact hg
        · intro hmem
          rw [hf] at hmem
          cases hmem
      · rw [List.mem_singleton] at hm
        rw [hm]
        refine ⟨0, ?_, le_refl 0, ?_⟩
        · exact List.get?_concat_length ts.w.entities.generations 0
        · intro hmem
          rw [hf] at hmem
          cases hmem
    · intro i hi
      rw [hf] at hi
      cases hi
    · show ts.w.entities.free.Nodup
      exact hinv.freeNodup
    · exact hinv.storages
    · intro p hp i s hsp
      obtain ⟨hlt, hnf⟩ := hinv.occLive p hp i s hsp
      refine ⟨?_, hnf⟩
      rw [List.length_append]
      exact Nat.lt_of_lt_of_le hlt (Nat.le_add_right _ _)
    · intro i g hg hnm
      rcases Nat.lt_or_ge i ts.w.entities.generations.length with hlt | hge
      · rw [List.get?_append hlt] at hg
        have hnm2 : i ∉ ts.w.entities.free := by
          rw [hf]
          exact List.not_mem_nil i
        obtain ⟨id, hmem, hidx, hgen⟩ := hinv.liveIssued i g hg hnm2
        exact ⟨id, List.mem_append_left _ hmem, hidx, hgen⟩
      · rw [List.get?_append_right hge] at hg
        have hi1 : i - ts.w.entities.generations.length < 1 :=
          (List.get?_eq_some.mp hg).1
        have hieq : i = ts.w.entities.generations.length := by omega
        have hg0 : g = 0 := by
          rw [show i - ts.w.entities.generations.length = 0 by omega] at hg
          exact (Option.some.inj hg).symm
        refine ⟨⟨ts.w.entities.generations.length, 0⟩,
          List.mem_append_right _ (List.mem_singleton_self _), ?_, ?_⟩
        · exact hieq.symm
        · exact hg0.symm
  | cons i0 rest =>
    have hA := allocate_eq_reuse ts.w.entities hf
    have hi0lt : i0 < ts.w.entities.generations.length :=
      hinv.freeRange i0 (by rw [hf]; exact List.mem_cons_self _ _)
    have hnodup := hinv.freeNodup
    rw [hf] at hnodup
    obtain ⟨hi0notin, hrestnodup⟩ := List.nodup_cons.mp hnodup
    rw [spawnEmpty_def, hA]
    constructor
    · intro g hg
      exact le_trans (hinv.gensBound g hg) (Nat.le_succ n)
    · intro id hid
      rcases List.mem_append.mp hid with hm | hm
      · obtain ⟨g, hg, hle, hstrict⟩ := hinv.issuedOk id hm
        refine ⟨g, hg, hle, ?_⟩
        intro hmem
        exact hstrict (by rw [hf]; exact List.mem_cons_of_mem _ hmem)
      · rw [List.mem_singleton] at hm
        rw [hm]
        refine ⟨ts.w.entities.generations.getD i0 0, ?_, le_refl _, ?_⟩
        · rw [List.get?_eq_get hi0lt, List.getD_eq_getElem?_getD,
            ← List.get?_eq_getElem?, List.get?_eq_get hi0lt]
          rfl
        · intro hmem
          exact absurd hmem hi0notin
    · intro i hi
      exact hinv.freeRange i (by rw [hf]; exact List.mem_cons_of_mem _ hi)
    · exact hrestnodup
    · exact hinv.storages
    · intro p hp i s hsp
      obtain ⟨hlt, hnf⟩ := hinv.occLive p hp i s hsp
      refine ⟨hlt, ?_⟩
      intro hm
      exact hnf (by rw [hf]; exact List.mem_cons_of_mem _ hm)
    · intro i g hg hnm
      by_cases hi0 : i = i0
      · subst hi0
        refine ⟨⟨i, ts.w.entities.generations.getD i 0⟩,
          List.mem_append_right _ (List.mem_singleton_self _), rfl, ?_⟩
        show ts.w.entities.generations.getD i 0 = g
        rw [List.getD_eq_getElem?_getD, ← List.get?_eq_getElem?, hg]
        rfl
      · have hnm2 : i ∉ ts.w.entities.free := by
          rw [hf]
          intro hm
          rcases List.mem_cons.mp hm with hx | hx
          · exact hi0 hx
          · exact hnm hx
        obtain ⟨id, hmem, hidx, hgen⟩ := hinv.liveIssued i g hg hnm2
        exact ⟨id, List.mem_append_left _ hmem, hidx, hgen⟩

/-- `insert` on an issued id preserves the invariant. -/
lemma traceInv_insert {V : Type} {ts : Trace V} {n : Nat} (t : Nat)
    {e : EntityId} (v : V) (hinv : TraceInv ts n) (he : e ∈ ts.issued) :
    TraceInv (⟨(ts.w.insert t e v).2, ts.issued⟩ : Trace V) (n + 1) := by
  cases hch : ts.w.entities.checkGeneration e with
  | false =>
    rw [insert_eq_err v hch]
    exact hinv.mono (Nat.le_succ n)
  | true =>
    have hnf : e.index ∉ ts.w.entities.free :=
      hinv.issued_live_not_free he hch
    have hlt := checkGeneration_lt hch
    rw [insert_eq_ok v hch]
    refine ⟨fun g hg => le_trans (hinv.gensBound g hg) (Nat.le_succ n),
      hinv.issuedOk, hinv.freeRange, hinv.freeNodup, ?_, ?_,
      hinv.liveIssued⟩
    · have hsw := storagesWF_insert t e v hinv.storages
      rw [insert_eq_ok v hch] at hsw
      exact hsw
    · intro p hp i s hsp
      rcases mem_setStorage hp with h1 | h1
      · subst h1
        rcases insert_occupied v hsp with hji | ⟨s0, hs0⟩
        · rw [hji]
          exact ⟨hlt, hnf⟩
        · cases hl : lookupStorage ts.w.components t with
          | none =>
            rw [hl] at hs0
            exact absurd hs0
              (by simp [SparseSetStorage.empty, SparseSetStorage.sparseGet])
          | some st0 =>
            rw [hl] at hs0
            exact hinv.occLive _ (lookupStorage_mem hl) i s0 hs0
      · exact hinv.occLive _ h1 i s hsp

/-- `remove` on an issued id preserves the invariant. -/
lemma traceInv_remove {V : Type} {ts : Trace V} {n : Nat} (t : Nat)
    {e : EntityId} (hinv : TraceInv ts n) :
    TraceInv (⟨(ts.w.remove t e).2, ts.issued⟩ : Trace V) (n + 1) := by
  cases hch : ts.w.entities.checkGeneration e with
  | false =>
    rw [remove_eq_dead hch]
    exact hinv.mono (Nat.le_succ n)
  | true =>
    cases hl : lookupStorage ts.w.components t with
    | none =>
      rw [remove_eq_nostorage hch hl]
      exact hinv.mono (Nat.le_succ n)
    | some st =>
      rw [remove_state hch hl]
      refine ⟨fun g hg => le_trans (hinv.gensBound g hg) (Nat.le_succ n),
        hinv.issuedOk, hinv.freeRange, hinv.freeNodup, ?_, ?_,
        hinv.liveIssued⟩
      · have hsw := storagesWF_remove t e hinv.storages
        rw [remove_state hch hl] at hsw
        exact hsw
      · intro p hp i s hsp
        rcases mem_setStorage hp with h1 | h1
        · subst h1
          obtain ⟨hne, s0, hs0⟩ :=
            remove_occupied (hinv.storages _ (lookupStorage_mem hl)) hsp
          exact hinv.occLive _ (lookupStorage_mem hl) i s0 hs0
        · exact hinv.occLive _ h1 i s hsp

/-- `despawn` on an issued id preserves the invariant while the step
count stays below the `u32` wraparound bound. -/
lemma traceInv_despawn {V : Type} {ts : Trace V} {n : Nat} {e : EntityId}
    (hinv : TraceInv ts n) (he : e ∈ ts.issued) (hb : n + 1 < u32Mod) :
    TraceInv (⟨(ts.w.despawn e).2, ts.issued⟩ : Trace V) (n + 1) := by
  cases hch : ts.w.entities.checkGeneration e with
  | false =>
    rw [despawn_eq_err (deallocate_eq_none hch)]
    exact hinv.mono (Nat.le_succ n)
  | true =>
    have hnf : e.index ∉ ts.w.entities.free :=
      hinv.issued_live_not_free he hch
    have hlt := checkGeneration_lt hch
    have hgd := checkGeneration_getD hch
    have hgmem : e.generation ∈ ts.w.entities.generations := by
      rw [checkGeneration_iff] at hch
      exact List.get?_mem hch
    have hgle : e.generation ≤ n := hinv.gensBound _ hgmem
    have hmod : (e.generation + 1) % u32Mod = e.generation + 1 :=
      Nat.mod_eq_of_lt (by omega)
    rw [despawn_eq_ok (deallocate_eq_some hch)]
    constructor
    · intro g hg
      rcases List.mem_or_eq_of_mem_set hg with hm | hm
      · exact le_trans (hinv.gensBound g hm) (Nat.le_succ n)
      · rw [hm, hgd, hmod]
        omega
    · intro id hid
      obtain ⟨g, hg, hle, hstrict⟩ := hinv.issuedOk id hid
      by_cases hidx : id.index = e.index
      · have hge : g = e.generation := by
          rw [hidx] at hg
          rw [checkGeneration_iff] at hch
          rw [hch] at hg
          exact (Option.some.inj hg).symm
        refine ⟨e.generation + 1, ?_, ?_, ?_⟩
        · rw [hidx, List.get?_eq_getElem?, List.getElem?_set_self hlt,
            hgd, hmod]
        · omega
        · intro _
          omega
      · refine ⟨g, ?_, hle, ?_⟩
        · rw [List.get?_eq_getElem?,
            List.getElem?_set_ne (fun hc => hidx hc.symm),
            ← List.get?_eq_getElem?]
          exact hg
        · intro hmem
          rcases List.mem_cons.mp hmem with hcx | hcx
          · exact absurd hcx hidx
          · exact hstrict hcx
    · intro i hi
      rcases List.mem_cons.mp hi with h | h
      · rw [h, List.length_set]
        exact hlt
      · rw [List.length_set]
        exact hinv.freeRange i h
    · exact List.nodup_cons.mpr ⟨hnf, hinv.freeNodup⟩
    · have hsw := storagesWF_despawn e hinv.storages
      rw [despawn_eq_ok (deallocate_eq_some hch)] at hsw
      exact hsw
    · intro p hp i s hsp
      rcases List.mem_map.mp hp with ⟨q, hq, hpq⟩
      subst hpq
      obtain ⟨hne, s0, hs0⟩ :=
        remove_occupied (hinv.storages _ hq) hsp
      obtain ⟨hli, hnfi⟩ := hinv.occLive _ hq i s0 hs0
      refine ⟨by rw [List.length_set]; exact hli, ?_⟩
      intro hmem
      rcases List.mem_cons.mp hmem with h | h
      · exact hne h
      · exact hnfi h
    · intro i g hg hnm
      have hne : i ≠ e.index := fun hc =>
        hnm (by rw [hc]; exact List.mem_cons_self _ _)
      rw [List.get?_eq_getElem?,
        List.getElem?_set_ne (fun hc => hne hc.symm),
        ← List.get?_eq_getElem?] at hg
      have hnm2 : i ∉ ts.w.entities.free := fun hm =>
        hnm (List.mem_cons_of_mem _ hm)
      exact hinv.liveIssued i g hg hnm2

/-- One trace step preserves the invariant below the wraparound bound. -/
lemma traceInv_step {V : Type} {ts : Trace V} {n : Nat} (op : EcsOp V)
    (hinv : TraceInv ts n) (hb : n + 1 < u32Mod) :
    TraceInv (ts.step op) (n + 1) := by
  cases op with
  | spawn => exact traceInv_spawn hinv
  | insertOp t h v =>
    show TraceInv (match ts.issued.get? h with
      | some e => (⟨(ts.w.insert t e v).2, ts.issued⟩ : Trace V)
      | none => ts) (n + 1)
    cases hI : ts.issued.get? h with
    | none => exact hinv.mono (Nat.le_succ n)
    | some e => exact traceInv_insert t v hinv (List.get?_mem hI)
  | removeOp t h =>
    show TraceInv (match ts.issued.get? h with
      | some e => (⟨(ts.w.remove t e).2, ts.issued⟩ : Trace V)
      | none => ts) (n + 1)
    cases hI : ts.issued.get? h with
    | none => exact hinv.mono (Nat.le_succ n)
    | some e => exact traceInv_remove t hinv
  | despawnOp h =>
    show TraceInv (match ts.issued.get? h with
      | some e => (⟨(ts.w.despawn e).2, ts.issued⟩ : Trace V)
      | none => ts) (n + 1)
    cases hI : ts.issued.get? h with
    | none => exact hinv.mono (Nat.le_succ n)
    | some e => exact traceInv_despawn hinv (List.get?_mem hI) hb

/-- Folding a bounded trace from an invariant state keeps the invariant. -/
lemma traceInv_run_aux {V : Type} (ops : List (EcsOp V)) :
    ∀ (ts : Trace V) (n : Nat), TraceInv ts n →
    n + ops.length < u32Mod →
    TraceInv (ops.foldl Trace.step ts) (n + ops.length) := by
  induction ops with
  | nil =>
    intro ts n h _
    simpa using h
  | cons op rest ih =>
    intro ts n h hb
    have hb1 : n + 1 < u32Mod := by
      simp only [List.length_cons] at hb
      omega
    have h1 := traceInv_step op h hb1
    have h2 := ih (ts.step op) (n + 1) h1 (by
      simp only [List.length_cons] at hb
      omega)
    have heq : n + 1 + rest.length = n + (op :: rest).length := by
      simp only [List.length_cons]
      omega
    rw [heq] at h2
    exact h2

/-- C6: after every sequence of store operations (shorter than the `u32`
generation wraparound bound, which the spec accepts as the counters'
width), every entity index occupied in any registered storage belongs to
a currently-live issued `EntityId`; and a successful `despawn(e)` removes
`e`'s index from every currently-registered storage. -/
theorem C6_storage_indices_live :
    (∀ (V : Type) (ops : List (EcsOp V)), ops.length < u32Mod →
      ∀ t st, lookupStorage ((Trace.run V ops).w).components t = some st →
      ∀ i s, st.sparseGet i = some s →
      ∃ id, id ∈ (Trace.run V ops).issued ∧ id.index = i ∧
        ((Trace.run V ops).w).entities.checkGeneration id = true ∧
        i ∉ ((Trace.run V ops).w).entities.free) ∧
    (∀ (V : Type) (w : Ecs V) (e : EntityId),
      (w.despawn e).1 = .ok () →
      ∀ t st, lookupStorage ((w.despawn e).2).components t = some st →
      st.sparseGet e.index = none) := by
  constructor
  · intro V ops hlen t st hl i s hsp
    have hinv : TraceInv (Trace.run V ops) ops.length := by
      have h0 := traceInv_init V
      have h1 := traceInv_run_aux ops (Trace.init V) 0 h0 (by omega)
      simpa using h1
    obtain ⟨hlt, hnf⟩ := hinv.occLive _ (lookupStorage_mem hl) i s hsp
    obtain ⟨id, hmem, hidx, hgen⟩ := hinv.liveIssued i
      ((Trace.run V ops).w.entities.generations.get ⟨i, hlt⟩)
      (List.get?_eq_get hlt) hnf
    refine ⟨id, hmem, hidx, ?_, hnf⟩
    rw [checkGeneration_iff, hidx, hgen]
    exact List.get?_eq_get hlt
  · intro V w e hok t st hl
    cases hd : w.entities.deallocate e with
    | none =>
      rw [despawn_eq_err hd] at hok
      cases hok
    | some es' =>
      rw [despawn_eq_ok hd] at hl
      have hmap := lookupStorage_map w.components t
        fun s0 => (s0.remove e.index).2
      cases hl0 : lookupStorage w.components t with
      | none =>
        rw [hl0, Option.map_none'] at hmap
        have hl' : lookupStorage (w.components.map fun p =>
            (p.1, (p.2.remove e.index).2)) t = some st := hl
        rw [hmap] at hl'
        cases hl'
      | some st0 =>
        rw [hl0, Option.map_some'] at hmap
        have hl' : lookupStorage (w.components.map fun p =>
            (p.1, (p.2.remove e.index).2)) t = some st := hl
        rw [hmap] at hl'
        cases hl'
        exact remove_sparseGet_self st0 e.index

/-- Witness for C6: after `[spawn, insert 5 99]` the occupied index 0 of
storage 5 belongs to a live issued id; despawning `demoE` leaves its
index absent from the registered storage 7. -/
theorem C6_storage_indices_live_witness :
    (∃ id, id ∈ (Trace.run Nat demoOps).issued ∧ id.index = 0 ∧
      ((Trace.run Nat demoOps).w).entities.checkGeneration id = true ∧
      0 ∉ ((Trace.run Nat demoOps).w).entities.free) ∧
    (⟨[none], [], []⟩ : SparseSetStorage Nat).sparseGet demoE.index
      = none := by
  constructor
  · exact C6_storage_indices_live.1 Nat demoOps (by decide) 5
      ⟨[some 0], [99], [0]⟩ (by rfl) 0 0 (by rfl)
  · exact C6_storage_indices_live.2 Nat demoW2 demoE (by rfl) 7
      ⟨[none], [], []⟩ (by rfl)

end Feather
